import Mathlib

/-!
Shallow embedding of the `minganalysis` inventory-analysis pipeline
(`inventory_analyzer.py`, `streamlit_dashboard.py`, `daily_analysis.py`).

Modelling conventions:
* pandas float quantities are modelled as `Option ℚ`: `none` is the NaN null
  sentinel produced by `pd.to_numeric(..., errors='coerce')`, `some q` a number.
* Scalars produced by percent-change arithmetic are modelled by `PVal`, which
  keeps NaN and the two signed infinities that IEEE division by zero yields
  (with `warnings.filterwarnings('ignore')` nothing ever raises).
* pandas `groupby(key)` sorts the distinct keys ascending (`sort=True` default);
  string keys are compared lexicographically by code point, exactly as Python
  compares `str` values.  `DataFrame.sort_values` is modelled as a stable sort
  (ties keep their incoming order), which is what numpy's sort produces on the
  small frames this program builds.
* Snapshot dates are day ordinals (`Nat`); `strftime` is their canonical
  rendering `toString`.
-/

set_option linter.all false

/-- Scalar outcome of pandas float arithmetic: NaN (the undefined sentinel
recognised by `pd.isna`), signed infinities, or an exact number. -/
inductive PVal where
  | nan
  | posInf
  | negInf
  | num (q : ℚ)
deriving DecidableEq, Repr

/-- The `pd.isna` predicate: true exactly on NaN (infinities count as values). -/
def PVal.isNan : PVal → Bool
  | PVal.nan => true
  | _ => false

/-- IEEE-style division as numpy performs it with warnings suppressed:
`x / 0` is a signed infinity for `x ≠ 0` and NaN for `0 / 0`; it never raises. -/
def fdiv (a b : ℚ) : PVal :=
  if b = 0 then
    if a = 0 then PVal.nan else if 0 < a then PVal.posInf else PVal.negInf
  else PVal.num (a / b)

/-- Multiplication by 100 (`* 100` on the percent-change column); NaN and the
infinities are fixed points. -/
def scale100 : PVal → PVal
  | PVal.num q => PVal.num (q * 100)
  | v => v

/-- The float comparison `abs x > t`: NaN compares false, `abs(±inf) = inf`
exceeds every finite threshold. -/
def PVal.absGT : PVal → ℚ → Bool
  | PVal.nan, _ => false
  | PVal.posInf, _ => true
  | PVal.negInf, _ => true
  | PVal.num q, t => decide (t < |q|)

/-- The float comparison `x < t`: false on NaN and `+inf`. -/
def PVal.ltQ : PVal → ℚ → Bool
  | PVal.nan, _ => false
  | PVal.posInf, _ => false
  | PVal.negInf, _ => true
  | PVal.num q, t => decide (q < t)

/-- The float comparison `x > t`: false on NaN and `-inf`. -/
def PVal.gtQ : PVal → ℚ → Bool
  | PVal.nan, _ => false
  | PVal.posInf, _ => true
  | PVal.negInf, _ => false
  | PVal.num q, t => decide (t < q)

/-- Round half to even (numpy/Python rounding) to an integer. -/
def rhe (q : ℚ) : ℤ :=
  let f : ℤ := ⌊q⌋
  let r : ℚ := q - (f : ℚ)
  if r < 1 / 2 then f
  else if 1 / 2 < r then f + 1
  else if f % 2 = 0 then f else f + 1

/-- `Series.round(2)`: round half to even at two decimal places. -/
def round2 (q : ℚ) : ℚ := (rhe (q * 100) : ℚ) / 100

/-- `round(2)` lifted to pandas scalars: NaN and infinities are unchanged. -/
def round2P : PVal → PVal
  | PVal.num q => PVal.num (round2 q)
  | v => v

/-- pandas `sum` aggregation over a nullable column: NaN entries are skipped
(`skipna=True`, `min_count=0`), an all-NaN group sums to `0`. -/
def qsum (l : List (Option ℚ)) : ℚ := (l.filterMap id).sum

/-- pandas `count` aggregation: the number of non-null entries. -/
def qcount (l : List (Option ℚ)) : Nat := (l.filterMap id).length

/-- pandas `mean` aggregation: mean of the non-null entries, NaN when the
group is all-null. -/
def qmean (l : List (Option ℚ)) : Option ℚ :=
  let v := l.filterMap id
  if v.length = 0 then none else some (v.sum / (v.length : ℚ))

/-- First-occurrence deduplication, the behaviour of `Series.unique()`:
`seen` accumulates the values already emitted. -/
def uniqueKeepAux {α : Type} [DecidableEq α] (seen : List α) : List α → List α
  | [] => []
  | a :: l => if a ∈ seen then uniqueKeepAux seen l else a :: uniqueKeepAux (a :: seen) l

/-- `Series.unique()`: distinct values in encounter order. -/
def uniqueKeep {α : Type} [DecidableEq α] (l : List α) : List α := uniqueKeepAux [] l

theorem mem_uniqueKeepAux {α : Type} [DecidableEq α] (l : List α) :
    ∀ (seen : List α) (x : α), x ∈ uniqueKeepAux seen l ↔ x ∈ l ∧ x ∉ seen := by
  induction l with
  | nil => intro seen x; simp [uniqueKeepAux]
  | cons a l ih =>
    intro seen x
    by_cases ha : a ∈ seen
    · rw [uniqueKeepAux, if_pos ha, ih seen x]
      constructor
      · rintro ⟨hx, hs⟩; exact ⟨List.mem_cons_of_mem a hx, hs⟩
      · rintro ⟨hx, hs⟩
        rcases List.mem_cons.1 hx with rfl | hx'
        · exact absurd ha hs
        · exact ⟨hx', hs⟩
    · rw [uniqueKeepAux, if_neg ha, List.mem_cons, ih (a :: seen) x]
      constructor
      · rintro (h | ⟨hx, hs⟩)
        · exact ⟨by rw [h]; exact List.mem_cons_self a l, by rw [h]; exact ha⟩
        · exact ⟨List.mem_cons_of_mem a hx, fun h => hs (List.mem_cons_of_mem a h)⟩
      · rintro ⟨hx, hs⟩
        rcases List.mem_cons.1 hx with rfl | hx'
        · exact Or.inl rfl
        · by_cases hxa : x = a
          · exact Or.inl hxa
          · refine Or.inr ⟨hx', fun hmem => ?_⟩
            rcases List.mem_cons.1 hmem with rfl | h
            · exact hxa rfl
            · exact hs h

theorem mem_uniqueKeep {α : Type} [DecidableEq α] (l : List α) (x : α) :
    x ∈ uniqueKeep l ↔ x ∈ l := by
  simp [uniqueKeep, mem_uniqueKeepAux]

theorem nodup_uniqueKeepAux {α : Type} [DecidableEq α] (l : List α) :
    ∀ seen : List α, (uniqueKeepAux seen l).Nodup := by
  induction l with
  | nil => intro seen; simp [uniqueKeepAux]
  | cons a l ih =>
    intro seen
    by_cases ha : a ∈ seen
    · simpa [uniqueKeepAux, if_pos ha] using ih seen
    · simp only [uniqueKeepAux, if_neg ha, List.nodup_cons]
      refine ⟨fun hmem => ?_, ih _⟩
      exact ((mem_uniqueKeepAux l _ a).1 hmem).2 (List.mem_cons_self _ _)

theorem nodup_uniqueKeep {α : Type} [DecidableEq α] (l : List α) :
    (uniqueKeep l).Nodup := nodup_uniqueKeepAux l []

/-- Code-point comparison of character lists, the order Python uses on `str`. -/
def charListLe : List Char → List Char → Bool
  | [], _ => true
  | _ :: _, [] => false
  | a :: as, b :: bs =>
    if a.toNat < b.toNat then true
    else if b.toNat < a.toNat then false
    else charListLe as bs

/-- Lexicographic order on strings by code point (Python `str` comparison). -/
def strLe (a b : String) : Prop := charListLe a.data b.data = true

instance : DecidableRel strLe := fun a b => inferInstanceAs (Decidable (_ = true))

theorem charListLe_total : ∀ a b : List Char, charListLe a b = true ∨ charListLe b a = true := by
  intro a
  induction a with
  | nil => intro b; left; rfl
  | cons x xs ih =>
    intro b
    cases b with
    | nil => right; rfl
    | cons y ys =>
      by_cases hxy : x.toNat < y.toNat
      · left; simp [charListLe, hxy]
      · by_cases hyx : y.toNat < x.toNat
        · right; simp [charListLe, hyx, Nat.lt_asymm hyx]
        · rcases ih ys with h | h
          · left; simp [charListLe, hxy, hyx, h]
          · right; simp [charListLe, hxy, hyx, h]

theorem charListLe_trans : ∀ a b c : List Char,
    charListLe a b = true → charListLe b c = true → charListLe a c = true := by
  intro a
  induction a with
  | nil => intro b c _ _; rfl
  | cons x xs ih =>
    intro b c hab hbc
    cases b with
    | nil => simp [charListLe] at hab
    | cons y ys =>
      cases c with
      | nil => simp [charListLe] at hbc
      | cons z zs =>
        simp only [charListLe] at hab hbc ⊢
        by_cases hxy : x.toNat < y.toNat
        · by_cases hyz : y.toNat < z.toNat
          · simp [Nat.lt_trans hxy hyz]
          · by_cases hzy : z.toNat < y.toNat
            · simp [hyz, hzy] at hbc
            · have hyz' : y.toNat = z.toNat := Nat.le_antisymm (Nat.le_of_not_lt hzy) (Nat.le_of_not_lt hyz)
              simp [hyz' ▸ hxy]
        · by_cases hyx : y.toNat < x.toNat
          · simp [hxy, hyx] at hab
          · have hxy' : x.toNat = y.toNat := Nat.le_antisymm (Nat.le_of_not_lt hyx) (Nat.le_of_not_lt hxy)
            by_cases hyz : y.toNat < z.toNat
            · simp [hxy' ▸ hyz]
            · by_cases hzy : z.toNat < y.toNat
              · simp [hyz, hzy] at hbc
              · have hyz' : y.toNat = z.toNat := Nat.le_antisymm (Nat.le_of_not_lt hzy) (Nat.le_of_not_lt hyz)
                simp only [hxy', hyz', Nat.lt_irrefl, if_false]
                simp only [hxy, hyx, if_false] at hab
                simp only [hyz, hzy, if_false] at hbc
                exact ih _ _ hab hbc

theorem charToNat_inj {x y : Char} (h : x.toNat = y.toNat) : x = y := by
  apply Char.ext
  have : x.val.toNat = y.val.toNat := h
  exact UInt32.toNat.inj this

theorem charListLe_antisymm : ∀ a b : List Char,
    charListLe a b = true → charListLe b a = true → a = b := by
  intro a
  induction a with
  | nil =>
    intro b _ hba
    cases b with
    | nil => rfl
    | cons y ys => simp [charListLe] at hba
  | cons x xs ih =>
    intro b hab hba
    cases b with
    | nil => simp [charListLe] at hab
    | cons y ys =>
      simp only [charListLe] at hab hba
      by_cases hxy : x.toNat < y.toNat
      · simp [Nat.lt_asymm hxy, hxy] at hba
      · by_cases hyx : y.toNat < x.toNat
        · simp [hxy, hyx] at hab
        · have hx : x.toNat = y.toNat := Nat.le_antisymm (Nat.le_of_not_lt hyx) (Nat.le_of_not_lt hxy)
          have hx' : x = y := charToNat_inj hx
          simp only [hxy, hyx, if_false] at hab hba
          rw [hx', ih ys hab hba]

instance : IsTotal String strLe := ⟨fun a b => charListLe_total a.data b.data⟩

instance : IsTrans String strLe := ⟨fun a b c => charListLe_trans a.data b.data c.data⟩

theorem strLe_antisymm {a b : String} (hab : strLe a b) (hba : strLe b a) : a = b := by
  cases a; cases b
  exact congrArg String.mk (charListLe_antisymm _ _ hab hba)

/-- Lexicographic order on (item code, item name) pairs: the order of a
two-level pandas groupby index. -/
def pairLe (a b : String × String) : Prop :=
  (strLe a.1 b.1 ∧ a.1 ≠ b.1) ∨ (a.1 = b.1 ∧ strLe a.2 b.2)

instance : DecidableRel pairLe := fun a b => inferInstanceAs (Decidable (_ ∨ _))

instance : IsTotal (String × String) pairLe := by
  constructor
  intro a b
  by_cases h1 : a.1 = b.1
  · rcases charListLe_total a.2.data b.2.data with h | h
    · exact Or.inl (Or.inr ⟨h1, h⟩)
    · exact Or.inr (Or.inr ⟨h1.symm, h⟩)
  · rcases charListLe_total a.1.data b.1.data with h | h
    · exact Or.inl (Or.inl ⟨h, h1⟩)
    · exact Or.inr (Or.inl ⟨h, fun he => h1 he.symm⟩)

instance : IsTrans (String × String) pairLe := by
  constructor
  rintro a b c (⟨hab, hne⟩ | ⟨he, hab⟩) (⟨hbc, hne'⟩ | ⟨he', hbc⟩)
  · refine Or.inl ⟨charListLe_trans _ _ _ hab hbc, fun he => ?_⟩
    exact hne' (strLe_antisymm hbc (he ▸ hab))
  · exact Or.inl ⟨he' ▸ hab, he' ▸ hne⟩
  · exact Or.inl ⟨he ▸ hbc, he ▸ hne'⟩
  · exact Or.inr ⟨he.trans he', charListLe_trans _ _ _ hab hbc⟩

theorem pairLe_antisymm {a b : String × String} (hab : pairLe a b) (hba : pairLe b a) : a = b := by
  rcases hab with ⟨hab, hne⟩ | ⟨he, hab⟩
  · rcases hba with ⟨hba, _⟩ | ⟨he', _⟩
    · exact absurd (strLe_antisymm hab hba) hne
    · exact absurd he'.symm hne
  · rcases hba with ⟨_, hne'⟩ | ⟨_, hba⟩
    · exact absurd he.symm hne'
    · exact Prod.ext he (strLe_antisymm hab hba)

section GroupKeys

variable {α : Type} [DecidableEq α] (le : α → α → Prop) [DecidableRel le]

/-- The index of a pandas `groupby(key, sort=True)`: the distinct keys of the
column, sorted ascending. -/
def groupKeys (l : List α) : List α := List.insertionSort le (uniqueKeep l)

theorem mem_groupKeys (l : List α) (x : α) : x ∈ groupKeys le l ↔ x ∈ l := by
  rw [groupKeys, (List.perm_insertionSort le (uniqueKeep l)).mem_iff, mem_uniqueKeep]

theorem nodup_groupKeys (l : List α) : (groupKeys le l).Nodup :=
  ((List.perm_insertionSort le (uniqueKeep l)).nodup_iff).2 (nodup_uniqueKeep l)

theorem sorted_groupKeys [IsTotal α le] [IsTrans α le] (l : List α) :
    (groupKeys le l).Sorted le :=
  List.sorted_insertionSort le (uniqueKeep l)

theorem pairwise_strict_groupKeys [IsTotal α le] [IsTrans α le] (l : List α) :
    (groupKeys le l).Pairwise (fun a b => le a b ∧ a ≠ b) :=
  (sorted_groupKeys le l).and (nodup_groupKeys le l)

end GroupKeys

section SortValues

variable {β : Type} (val : β → ℚ)

/-- `DataFrame.sort_values(col, ascending=False)` modelled as a stable sort:
an element goes in front of another exactly when its value is strictly
larger, so equal values keep their incoming order. -/
def sortDesc (l : List β) : List β := List.insertionSort (fun a b => val b ≤ val a) l

/-- `DataFrame.sort_values(col, ascending=True)`, again stable. -/
def sortAsc (l : List β) : List β := List.insertionSort (fun a b => val a ≤ val b) l

theorem mem_sortDesc (l : List β) (x : β) : x ∈ sortDesc val l ↔ x ∈ l :=
  (List.perm_insertionSort _ l).mem_iff

theorem mem_sortAsc (l : List β) (x : β) : x ∈ sortAsc val l ↔ x ∈ l :=
  (List.perm_insertionSort _ l).mem_iff

theorem pairwise_orderedInsert_stable (s : β → β → Prop) (a : β) (l : List β)
    (hl : l.Pairwise (fun x y => val y < val x ∨ (val x = val y ∧ s x y)))
    (ha : ∀ b ∈ l, s a b) :
    (List.orderedInsert (fun x y => val y ≤ val x) a l).Pairwise
      (fun x y => val y < val x ∨ (val x = val y ∧ s x y)) := by
  induction l with
  | nil => simp [List.orderedInsert]
  | cons b l ih =>
    by_cases hab : val b ≤ val a
    · rw [List.orderedInsert, if_pos hab]
      refine List.Pairwise.cons ?_ hl
      intro y hy
      rcases List.mem_cons.1 hy with rfl | hyl
      · rcases lt_or_eq_of_le hab with h | h
        · exact Or.inl h
        · exact Or.inr ⟨h.symm, ha _ (List.mem_cons_self _ _)⟩
      · rcases (List.pairwise_cons.1 hl).1 y hyl with h | ⟨he, _⟩
        · exact Or.inl (lt_of_lt_of_le h hab)
        · rcases lt_or_eq_of_le (he ▸ hab) with h' | h'
          · exact Or.inl h'
          · exact Or.inr ⟨h'.symm, ha _ hy⟩
    · rw [List.orderedInsert, if_neg hab]
      refine List.Pairwise.cons ?_ (ih (List.pairwise_cons.1 hl).2
        (fun c hc => ha c (List.mem_cons_of_mem _ hc)))
      intro y hy
      rcases (List.mem_orderedInsert _).1 hy with rfl | hyl
      · exact Or.inl (lt_of_not_le hab)
      · exact (List.pairwise_cons.1 hl).1 y hyl

/-- Stability of the descending value sort: if the input is pairwise related
by `s`, the output is sorted by value descending with ties still related by
`s` in order. -/
theorem pairwise_sortDesc_stable (s : β → β → Prop) (l : List β) (hl : l.Pairwise s) :
    (sortDesc val l).Pairwise (fun x y => val y < val x ∨ (val x = val y ∧ s x y)) := by
  induction l with
  | nil => simp [sortDesc, List.insertionSort]
  | cons a l ih =>
    have h1 : (sortDesc val l).Pairwise (fun x y => val y < val x ∨ (val x = val y ∧ s x y)) :=
      ih (List.pairwise_cons.1 hl).2
    have h2 : ∀ b ∈ sortDesc val l, s a b := by
      intro b hb
      exact (List.pairwise_cons.1 hl).1 b ((mem_sortDesc val l b).1 hb)
    simpa [sortDesc, List.insertionSort] using
      pairwise_orderedInsert_stable val s a (sortDesc val l) h1 h2

theorem sorted_sortDesc (l : List β) :
    (sortDesc val l).Pairwise (fun x y => val y ≤ val x) := by
  have := pairwise_sortDesc_stable val (fun _ _ => True) l (by
    induction l with
    | nil => exact List.Pairwise.nil
    | cons a l ih => exact List.Pairwise.cons (fun _ _ => trivial) ih)
  exact this.imp (fun h => by rcases h with h | ⟨h, _⟩ <;> [exact le_of_lt h; exact le_of_eq h.symm])

end SortValues

/-- One normalized row of the loaded table (`InventoryRecord` of the spec):
item code `客戶料號`, item name `客戶品名`, warehouse id `客戶庫別`, snapshot
date `爬取日期` (a day ordinal), quantity on hand `客戶庫存量(現有數量)` and
package quantity `包裝_數量` after permissive numeric coercion. -/
structure InventoryRecord where
  itemCode : String
  itemName : String
  warehouse : String
  snapDate : Nat
  qty : Option ℚ
  pkg : Option ℚ
deriving DecidableEq, Repr

/-- A raw input row before `load_data` normalizes it: `rawDate` is `none` when
`pd.to_datetime` cannot parse the cell, `rawQty`/`rawPkg` are `none` when
`pd.to_numeric(..., errors='coerce')` turns a non-numeric cell into NaN. -/
structure RawRow where
  itemCode : String
  itemName : String
  warehouse : String
  rawDate : Option Nat
  rawQty : Option ℚ
  rawPkg : Option ℚ
deriving DecidableEq, Repr

/-- A raw tabular data source: `readable` is false when the file is missing or
unreadable (`pd.read_excel` raises).  One presence flag per required named
column, because the code touches them at different times: `load_data` accesses
only `爬取日期` (`hasDateCol`), `客戶庫存量(現有數量)` (`hasQtyCol`) and
`包裝_數量` (`hasPkgCol`) — a missing one raises `KeyError` inside its
`try/except`; the item-code (`客戶料號`), item-name (`客戶品名`) and warehouse
(`客戶庫別`) columns are first accessed later, by `basic_statistics`, outside
any handler. -/
structure RawSource where
  readable : Bool
  hasDateCol : Bool
  hasQtyCol : Bool
  hasPkgCol : Bool
  hasCodeCol : Bool
  hasNameCol : Bool
  hasWhCol : Bool
  rows : List RawRow
deriving DecidableEq, Repr

/-- Failure modes of `load_data`; all are caught by its `try/except` and turned
into a `False` return value. -/
inductive LoadError where
  | unreadable
  | missingColumn
  | badDate
deriving DecidableEq, Repr

/-- Uncaught exceptions of the downstream pipeline. -/
inductive RunError where
  | emptyData
  | keyError
deriving DecidableEq, Repr

/-- `pd.to_datetime` over the whole column (`errors='raise'` default): one
unparseable date fails the whole load, there is no per-row recovery. -/
def parseRows : List RawRow → Option (List InventoryRecord)
  | [] => some []
  | r :: rest =>
    match r.rawDate with
    | none => none
    | some d => (parseRows rest).map (fun l =>
        ⟨r.itemCode, r.itemName, r.warehouse, d, r.rawQty, r.rawPkg⟩ :: l)

/-- `InventoryAnalyzer.load_data`: reads the source, parses the date column
(fatal on any unparseable row) and coerces the two quantity columns
(non-numeric becomes the null sentinel, never an error).  Only the three
columns this function accesses can fail it: a missing `爬取日期`,
`客戶庫存量(現有數量)` or `包裝_數量` column raises `KeyError` inside the
`try/except`; a missing item-code/item-name/warehouse column goes unnoticed
here.  Checks appear in the code's statement order. -/
def load_data (src : RawSource) : Except LoadError (List InventoryRecord) :=
  if ¬ src.readable then Except.error LoadError.unreadable
  else if ¬ src.hasDateCol then Except.error LoadError.missingColumn
  else
    match parseRows src.rows with
    | none => Except.error LoadError.badDate
    | some records =>
      if ¬ src.hasQtyCol then Except.error LoadError.missingColumn
      else if ¬ src.hasPkgCol then Except.error LoadError.missingColumn
      else Except.ok records

/-- `Series.max()` over the date column (day ordinals). -/
def listMax (l : List Nat) : Nat := l.foldl Nat.max 0

/-- `df.groupby('爬取日期')[qty].sum()`: per-date totals over the distinct
dates sorted ascending, NaN quantities skipped by `sum`. -/
def dailyTotals (records : List InventoryRecord) : List (Nat × ℚ) :=
  (groupKeys (fun a b : Nat => a ≤ b) (records.map (·.snapDate))).map
    (fun d => (d, qsum ((records.filter (fun r => r.snapDate = d)).map (·.qty))))

/-- Row-wise `diff()` / `pct_change() * 100` walk: `p` is the previous row,
each output row carries (date, total), the delta vs the previous total and
the percent change `(cur - prev) / prev * 100` with IEEE zero-division. -/
def ratedGo (p : Nat × ℚ) : List (Nat × ℚ) → List ((Nat × ℚ) × Option ℚ × PVal)
  | [] => []
  | c :: rest => (c, some (c.2 - p.2), scale100 (fdiv (c.2 - p.2) p.2)) :: ratedGo c rest

/-- The per-date series decorated with delta and percent change; the first row
has delta NaN (`none`) and percent change NaN, like `diff()`/`pct_change()`. -/
def ratedRows : List (Nat × ℚ) → List ((Nat × ℚ) × Option ℚ × PVal)
  | [] => []
  | x :: rest => (x, none, PVal.nan) :: ratedGo x rest

/-- Result of `InventoryAnalyzer.trend_analysis`: the per-date totals, and the
`變化量`/`變化率(%)` columns which exist only when there is more than one row
(the code adds them under `if len(daily_inventory) > 1`); the percent column
is rounded to two decimals. -/
structure TrendResult where
  rows : List (Nat × ℚ)
  table : Option (List ((Nat × ℚ) × Option ℚ × PVal))
deriving DecidableEq, Repr

/-- `InventoryAnalyzer.trend_analysis`. -/
def trend_analysis (records : List InventoryRecord) : TrendResult :=
  let rows := dailyTotals records
  { rows := rows
    table := if 1 < rows.length then
        some ((ratedRows rows).map (fun z => (z.1, z.2.1, round2P z.2.2)))
      else none }

/-- One warehouse row of `InventoryAnalyzer.warehouse_analysis`:
`agg` of sum / mean / count over the quantity column plus `nunique` of the
item-code column, everything rounded to two decimals. -/
structure WarehouseStat where
  warehouse : String
  total : ℚ
  mean : Option ℚ
  itemCount : Nat
  codeKinds : Nat
deriving DecidableEq, Repr

/-- The grouped (not yet value-sorted) warehouse table; `groupby` emits the
distinct warehouse ids sorted ascending. -/
def warehouseGroups (records : List InventoryRecord) : List WarehouseStat :=
  (groupKeys strLe (records.map (·.warehouse))).map (fun w =>
    let rows := records.filter (fun r => r.warehouse = w)
    { warehouse := w
      total := round2 (qsum (rows.map (·.qty)))
      mean := (qmean (rows.map (·.qty))).map round2
      itemCount := qcount (rows.map (·.qty))
      codeKinds := (uniqueKeep (rows.map (·.itemCode))).length })

/-- `InventoryAnalyzer.warehouse_analysis`: the grouped table over the whole
record set, sorted by total quantity descending. -/
def warehouse_analysis (records : List InventoryRecord) : List WarehouseStat :=
  sortDesc (·.total) (warehouseGroups records)

/-- One product row of `InventoryAnalyzer.product_analysis`. -/
structure ProductStat where
  itemCode : String
  itemName : String
  total : ℚ
  whCount : Nat
deriving DecidableEq, Repr

/-- `InventoryAnalyzer.product_analysis`: records filtered to the latest
snapshot date, grouped by (item code, item name), summed and sorted by total
descending. -/
def product_analysis (records : List InventoryRecord) : List ProductStat :=
  let latest := records.filter (fun r => r.snapDate = listMax (records.map (·.snapDate)))
  sortDesc (·.total)
    ((groupKeys pairLe (latest.map (fun r => (r.itemCode, r.itemName)))).map (fun k =>
      let rows := latest.filter (fun r => r.itemCode = k.1 ∧ r.itemName = k.2)
      { itemCode := k.1
        itemName := k.2
        total := qsum (rows.map (·.qty))
        whCount := rows.length }))

/-- The zero-inventory table: products of the latest snapshot whose total is
exactly 0 (`product_inventory[product_inventory['總庫存量'] == 0]`). -/
def zero_inventory (records : List InventoryRecord) : List ProductStat :=
  (product_analysis records).filter (fun p => p.total = 0)

/-- One anomaly event: item code, date, percent change and quantity at that
date (the '類型' column is the constant string `庫存大幅變化`). -/
structure AnomalyEvent where
  itemCode : String
  date : Nat
  rate : PVal
  qty : ℚ
deriving DecidableEq, Repr

/-- The per-item per-date total series: the item's rows grouped by date and
summed, exactly the grouping the trend calculator applies to the full set. -/
def itemSeries (records : List InventoryRecord) (code : String) : List (Nat × ℚ) :=
  dailyTotals (records.filter (fun r => r.itemCode = code))

/-- The inner loop body shared by `detect_anomalies` and
`anomaly_detection`: items with a single-date series yield nothing, otherwise
rows whose `pct_change * 100` has absolute value above the threshold (and is
not NaN — `pd.isna` re-check of the code) become events. -/
def itemEvents (code : String) (pd : List (Nat × ℚ)) (threshold : ℚ) : List AnomalyEvent :=
  if 1 < pd.length then
    (ratedRows pd).filterMap (fun z =>
      if z.2.2.absGT threshold && !z.2.2.isNan then
        some ⟨code, z.1.1, z.2.2, z.1.2⟩
      else none)
  else []

/-- `streamlit_dashboard.detect_anomalies`: for each distinct item code in
encounter order, flag the large per-item date-over-date percent changes. -/
def detect_anomalies (records : List InventoryRecord) (threshold : ℚ) : List AnomalyEvent :=
  (uniqueKeep (records.map (·.itemCode))).flatMap
    (fun p => itemEvents p (itemSeries records p) threshold)

/-- `InventoryAnalyzer.anomaly_detection`: the same per-item loop at the fixed
threshold 50, guarded by `len(df['爬取日期'].unique()) > 1`. -/
def anomaly_detection (records : List InventoryRecord) : List AnomalyEvent :=
  if 1 < (uniqueKeep (records.map (·.snapDate))).length then
    detect_anomalies records 50
  else []

/-- One dashboard warehouse row (`create_warehouse_chart` aggregates only sum
and `nunique`). -/
structure DashWarehouseStat where
  warehouse : String
  total : ℚ
  codeKinds : Nat
deriving DecidableEq, Repr

/-- `streamlit_dashboard.create_warehouse_chart`: filters the records to the
latest snapshot date, groups that subset by warehouse and sorts ascending. -/
def create_warehouse_chart (records : List InventoryRecord) : List DashWarehouseStat :=
  let latest := records.filter (fun r => r.snapDate = listMax (records.map (·.snapDate)))
  sortAsc (·.total)
    ((groupKeys strLe (latest.map (·.warehouse))).map (fun w =>
      let rows := latest.filter (fun r => r.warehouse = w)
      { warehouse := w
        total := qsum (rows.map (·.qty))
        codeKinds := (uniqueKeep (rows.map (·.itemCode))).length }))

/-- Comma grouping of a digit string (Python format spec `,`): a separator is
inserted whenever three digits remain to the right. -/
def digitsComma : List Char → List Char
  | [] => []
  | c :: cs =>
    c :: (if cs.length % 3 = 0 ∧ cs ≠ [] then ',' :: digitsComma cs else digitsComma cs)

/-- A natural number with thousands separators. -/
def natComma (n : Nat) : String := String.mk (digitsComma (Nat.toDigits 10 n))

/-- An integer with thousands separators (format `,.0f` after rounding). -/
def intComma (z : ℤ) : String := (if z < 0 then "-" else "") ++ natComma z.natAbs

/-- An integer with forced sign and thousands separators (format `+,.0f`). -/
def intCommaPlus (z : ℤ) : String := (if z < 0 then "-" else "+") ++ natComma z.natAbs

/-- Format `,.0f`: round half to even to an integer, comma-grouped. -/
def fmtQ0 (q : ℚ) : String := intComma (rhe q)

/-- Format `+,.0f`. -/
def fmtQp0 (q : ℚ) : String := intCommaPlus (rhe q)

/-- Format `,.1f`: one decimal place, comma-grouped integer part. -/
def fmtQ1 (q : ℚ) : String :=
  let n := rhe (q * 10)
  (if n < 0 then "-" else "") ++ natComma (n.natAbs / 10) ++ "." ++ toString (n.natAbs % 10)

/-- Format `,.1f` on a nullable mean: NaN renders as `nan` in an f-string. -/
def fmtMean : Option ℚ → String
  | none => "nan"
  | some q => fmtQ1 q

/-- Format `+.1f` on a pandas scalar: infinities render as `+inf`/`-inf`,
NaN as `nan` (the report guards NaN with `pd.isna` before formatting). -/
def fmtP1 : PVal → String
  | PVal.nan => "nan"
  | PVal.posInf => "+inf"
  | PVal.negInf => "-inf"
  | PVal.num q =>
    let n := rhe (q * 10)
    (if n < 0 then "-" else "+") ++ toString (n.natAbs / 10) ++ "." ++ toString (n.natAbs % 10)

/-- `strftime('%Y-%m-%d')` on a day ordinal: its canonical rendering. -/
def fmtDate (d : Nat) : String := toString d

/-- `Series.idxmax()` on the total column: the warehouse id of the first row
holding the maximum value. -/
def argmaxGo (best : WarehouseStat) : List WarehouseStat → WarehouseStat
  | [] => best
  | s :: rest => argmaxGo (if best.total < s.total then s else best) rest

/-- `idxmax` over the warehouse table (empty table unreachable: the caller
guards `len > 1`). -/
def argmaxW : List WarehouseStat → String
  | [] => ""
  | s :: rest => (argmaxGo s rest).warehouse

/-- `Series.idxmin()` on the total column: first row holding the minimum. -/
def argminGo (best : WarehouseStat) : List WarehouseStat → WarehouseStat
  | [] => best
  | s :: rest => argminGo (if s.total < best.total then s else best) rest

/-- `idxmin` over the warehouse table. -/
def argminW : List WarehouseStat → String
  | [] => ""
  | s :: rest => (argminGo s rest).warehouse

/-- The default suggestion appended when no rule fired. -/
def normalMsg : String := "目前庫存狀況良好，建議持續監控"

/-- `InventoryAnalyzer._generate_suggestions`, evaluating the five rules in
the code's fixed order over the already-computed analysis results. -/
def generate_suggestions (zeroCount anomalyCount : Nat) (ws : List WarehouseStat)
    (tr : TrendResult) : List String :=
  let s1 := if 0 < zeroCount then
      ["有 " ++ toString zeroCount ++ " 個產品庫存為零，建議及時補貨"] else []
  let s2 := if 0 < anomalyCount then
      ["發現 " ++ toString anomalyCount ++ " 個庫存異常變化，建議進一步調查原因"] else []
  let s3 := if 1 < ws.length then
      ["庫存分布不均，" ++ argmaxW ws ++ "庫存最多，" ++ argminW ws ++ "庫存最少，考慮調撥平衡"]
    else []
  let s45 :=
    match tr.table with
    | none => []
    | some tbl =>
      match tbl.getLast? with
      | none => []
      | some z =>
        if z.2.2.isNan then []
        else if z.2.2.ltQ (-10) then ["最近庫存下降超過10%，建議關注補貨計劃"]
        else if z.2.2.gtQ 20 then ["最近庫存增長超過20%，建議檢查是否有積壓風險"]
        else []
  let fired := s1 ++ s2 ++ s3 ++ s45
  if fired.isEmpty then [normalMsg] else fired

/-- The suggestion list of a full run, with all rule inputs computed from the
record set the way `run_full_analysis` populates `analysis_results`. -/
def suggestionsOf (records : List InventoryRecord) : List String :=
  generate_suggestions (zero_inventory records).length (anomaly_detection records).length
    (warehouse_analysis records) (trend_analysis records)

/-- Basic statistics of `InventoryAnalyzer.basic_statistics`; the function
raises on an empty record set (`min()` of an empty date column is `NaT` and
`NaT.strftime` raises), which aborts the run. -/
structure BasicStats where
  count : Nat
  codeKinds : Nat
  nameKinds : Nat
  whKinds : Nat
  dayKinds : Nat
  dateRange : String
deriving DecidableEq, Repr

/-- The values of the `basic_statistics` dict, computed once the columns are
known to be present and the set non-empty. -/
def basic_stats_of (records : List InventoryRecord) : BasicStats :=
  { count := records.length
    codeKinds := (uniqueKeep (records.map (·.itemCode))).length
    nameKinds := (uniqueKeep (records.map (·.itemName))).length
    whKinds := (uniqueKeep (records.map (·.warehouse))).length
    dayKinds := (uniqueKeep (records.map (·.snapDate))).length
    dateRange := fmtDate ((records.map (·.snapDate)).foldl Nat.min
        (listMax (records.map (·.snapDate)))) ++ " 到 " ++
      fmtDate (listMax (records.map (·.snapDate))) }

/-- `InventoryAnalyzer.basic_statistics`: evaluated outside any handler, so
its failures are uncaught.  The dict entries access `客戶料號`, `客戶品名`
and `客戶庫別` (in that order) — a missing one raises `KeyError`; afterwards
`min()/max().strftime` of an empty date column raises (`NaT` has no
`strftime`). -/
def basic_statistics (src : RawSource) (records : List InventoryRecord) :
    Except RunError BasicStats :=
  if ¬ src.hasCodeCol then Except.error RunError.keyError
  else if ¬ src.hasNameCol then Except.error RunError.keyError
  else if ¬ src.hasWhCol then Except.error RunError.keyError
  else if records.isEmpty then Except.error RunError.emptyData
  else Except.ok (basic_stats_of records)

/-- The basic-statistics section of the report (`if 'basic_stats' in
analysis_results`: the key is absent only when `basic_statistics` raised, in
which case the run never reaches the report; on the reachable paths it
completed exactly when the record set is non-empty). -/
def basicLines (records : List InventoryRecord) : List String :=
  if records.isEmpty then []
  else
    let st := basic_stats_of records
    ["## 📊 基本統計",
     "- **總筆數**: " ++ natComma st.count,
     "- **料號數量**: " ++ natComma st.codeKinds,
     "- **產品種類**: " ++ natComma st.nameKinds,
     "- **倉庫數量**: " ++ natComma st.whKinds,
     "- **資料天數**: " ++ natComma st.dayKinds,
     "- **時間範圍**: " ++ st.dateRange,
     ""]

/-- The warehouse table section of the report. -/
def warehouseLines (records : List InventoryRecord) : List String :=
  ["## 🏭 倉庫分析",
   "| 倉庫 | 總庫存量 | 平均庫存量 | 品項數量 | 料號種類 |",
   "|------|----------|------------|----------|----------|"]
  ++ (warehouse_analysis records).map (fun s =>
      "| " ++ s.warehouse ++ " | " ++ fmtQ0 s.total ++ " | " ++ fmtMean s.mean ++
      " | " ++ natComma s.itemCount ++ " | " ++ natComma s.codeKinds ++ " |")
  ++ [""]

/-- One row of the trend table: `-` for the undefined first delta/percent,
`pd.isna` deciding undefinedness (so infinities are printed as numbers). -/
def trendLine (z : (Nat × ℚ) × Option ℚ × PVal) : String :=
  "| " ++ fmtDate z.1.1 ++ " | " ++ fmtQ0 z.1.2 ++ " | " ++
  (match z.2.1 with | none => "-" | some d => fmtQp0 d) ++ " | " ++
  (if z.2.2.isNan then "-" else fmtP1 z.2.2 ++ "%") ++ " |"

/-- The trend section of the report.  The loop reads the `變化量` and
`變化率(%)` columns of every row unconditionally; when the trend table has
exactly one row those columns were never created and the row access raises
`KeyError` (an empty table runs the loop zero times and is harmless). -/
def trendSection (tr : TrendResult) : Except RunError (List String) :=
  match tr.table with
  | some tbl => Except.ok
      (["## 📈 庫存趨勢",
        "| 日期 | 總庫存量 | 變化量 | 變化率(%) |",
        "|------|----------|--------|-----------|"]
       ++ tbl.map trendLine ++ [""])
  | none =>
    if tr.rows.isEmpty then Except.ok
      (["## 📈 庫存趨勢",
        "| 日期 | 總庫存量 | 變化量 | 變化率(%) |",
        "|------|----------|--------|-----------|", ""])
    else Except.error RunError.keyError

/-- The zero-inventory warning of the product section. -/
def zeroLines (records : List InventoryRecord) : List String :=
  let z := zero_inventory records
  if z.length = 0 then []
  else
    ["### ⚠️ 零庫存警告 (" ++ toString z.length ++ "個產品)"]
    ++ (if z.length ≤ 20 then
          ["| 料號 | 產品名稱 |", "|------|----------|"]
          ++ z.map (fun p => "| " ++ p.itemCode ++ " | " ++ p.itemName ++ " |")
        else ["零庫存產品過多(" ++ toString z.length ++ "個)，請檢查詳細清單。"])
    ++ [""]

/-- The product section of the report: top ten by total plus the
zero-inventory warning. -/
def productLines (records : List InventoryRecord) : List String :=
  ["## 🔍 產品分析",
   "### 庫存量前10名產品",
   "| 料號 | 產品名稱 | 總庫存量 | 倉庫數量 |",
   "|------|----------|----------|----------|"]
  ++ ((product_analysis records).take 10).map (fun p =>
      "| " ++ p.itemCode ++ " | " ++ p.itemName ++ " | " ++ fmtQ0 p.total ++
      " | " ++ toString p.whCount ++ " |")
  ++ [""]
  ++ zeroLines records

/-- The anomaly section of the report: first 20 events, a `+N more` line when
truncated, or the no-anomalies statement. -/
def anomalyLines (records : List InventoryRecord) : List String :=
  let a := anomaly_detection records
  (if a.isEmpty then ["## ✅ 異常檢測", "未發現明顯異常。"]
   else
     ["## 🚨 異常檢測 (發現" ++ toString a.length ++ "個異常)",
      "| 料號 | 日期 | 異常類型 | 變化率 | 當前庫存 |",
      "|------|------|----------|--------|----------|"]
     ++ (a.take 20).map (fun e =>
         "| " ++ e.itemCode ++ " | " ++ fmtDate e.date ++ " | 庫存大幅變化 | " ++
         fmtP1 e.rate ++ "% | " ++ fmtQ0 e.qty ++ " |")
     ++ (if 20 < a.length then
           ["... 還有 " ++ toString (a.length - 20) ++ " 個異常未顯示"] else []))
  ++ [""]

/-- `InventoryAnalyzer.generate_report`: the ordered document, parametrised by
the generation timestamp `now` (the `datetime.now()` the code formats into the
second line).  Only the trend section can raise. -/
def generate_report (records : List InventoryRecord) (now : String) :
    Except RunError (List String) :=
  match trendSection (trend_analysis records) with
  | Except.error e => Except.error e
  | Except.ok trendLines =>
    Except.ok
      (["# 庫存分析報告", "**生成時間**: " ++ now, ""]
       ++ basicLines records
       ++ warehouseLines records
       ++ trendLines
       ++ productLines records
       ++ anomalyLines records
       ++ ["## 💡 建議"]
       ++ (suggestionsOf records).map (fun s => "- " ++ s))

/-- Outcome of `InventoryAnalyzer.run_full_analysis`: `loadFailed` is the
clean `return False` after a failed load (no report written); `raised` is an
uncaught exception further down (no report written either); `completed`
returns `True` with the report document that was persisted. -/
inductive RunOutcome where
  | loadFailed
  | raised (e : RunError)
  | completed (doc : List String)
deriving DecidableEq, Repr

/-- `InventoryAnalyzer.run_full_analysis`: load, the analysis passes (of which
only `basic_statistics` can raise — `KeyError` on a missing item-code/
item-name/warehouse column, or the `NaT.strftime` fault on an empty set),
chart generation (pure I/O, not modelled) and report generation. -/
def run_full_analysis (src : RawSource) (now : String) : RunOutcome :=
  match load_data src with
  | Except.error _ => RunOutcome.loadFailed
  | Except.ok records =>
    match basic_statistics src records with
    | Except.error e => RunOutcome.raised e
    | Except.ok _ =>
      match generate_report records now with
      | Except.error e => RunOutcome.raised e
      | Except.ok doc => RunOutcome.completed doc

theorem length_ratedGo (l : List (Nat × ℚ)) : ∀ p, (ratedGo p l).length = l.length := by
  induction l with
  | nil => intro p; rfl
  | cons c rest ih => intro p; simp [ratedGo, ih c]

theorem length_ratedRows (s : List (Nat × ℚ)) : (ratedRows s).length = s.length := by
  cases s with
  | nil => rfl
  | cons x rest => simp [ratedRows, length_ratedGo]

theorem ratedGo_get? (l : List (Nat × ℚ)) :
    ∀ (p : Nat × ℚ) (i : Nat) (c pr : Nat × ℚ),
      l.get? i = some c → (p :: l).get? i = some pr →
      (ratedGo p l).get? i = some (c, some (c.2 - pr.2), scale100 (fdiv (c.2 - pr.2) pr.2)) := by
  induction l with
  | nil => intro p i c pr hc _; simp at hc
  | cons c0 rest ih =>
    intro p i c pr hc hpr
    cases i with
    | zero =>
      rw [List.get?_cons_zero] at hc hpr
      injection hc with hc; injection hpr with hpr
      subst hc; subst hpr
      rfl
    | succ j =>
      rw [List.get?_cons_succ] at hc hpr
      simpa [ratedGo, List.get?_cons_succ] using ih c0 j c pr hc hpr

theorem ratedRows_get?_zero (s : List (Nat × ℚ)) (x : Nat × ℚ) (h : s.get? 0 = some x) :
    (ratedRows s).get? 0 = some (x, none, PVal.nan) := by
  cases s with
  | nil => simp at h
  | cons y rest =>
    rw [List.get?_cons_zero] at h
    injection h with h
    subst h
    rfl

theorem ratedRows_get?_succ (s : List (Nat × ℚ)) (i : Nat) (c pr : Nat × ℚ)
    (hc : s.get? (i + 1) = some c) (hpr : s.get? i = some pr) :
    (ratedRows s).get? (i + 1) =
      some (c, some (c.2 - pr.2), scale100 (fdiv (c.2 - pr.2) pr.2)) := by
  cases s with
  | nil => simp at hc
  | cons x rest =>
    rw [List.get?_cons_succ] at hc
    simpa [ratedRows, List.get?_cons_succ] using ratedGo_get? rest x i c pr hc hpr

theorem mem_ratedRows (s : List (Nat × ℚ)) (z : (Nat × ℚ) × Option ℚ × PVal) :
    z ∈ ratedRows s ↔
      ((∃ x, s.get? 0 = some x ∧ z = (x, none, PVal.nan)) ∨
       (∃ i pr c, s.get? i = some pr ∧ s.get? (i + 1) = some c ∧
         z = (c, some (c.2 - pr.2), scale100 (fdiv (c.2 - pr.2) pr.2)))) := by
  constructor
  · intro hz
    obtain ⟨n, hn⟩ := List.mem_iff_get?.1 hz
    have hlen : n < s.length := by
      have := List.get?_eq_some.1 hn
      obtain ⟨h, _⟩ := this
      rwa [length_ratedRows] at h
    cases n with
    | zero =>
      obtain ⟨x, hx⟩ : ∃ x, s.get? 0 = some x := by
        cases h0 : s.get? 0 with
        | none => rw [List.get?_eq_none] at h0; omega
        | some x => exact ⟨x, rfl⟩
      left
      refine ⟨x, hx, ?_⟩
      have := ratedRows_get?_zero s x hx
      rw [this] at hn
      injection hn with hn
      exact hn.symm
    | succ j =>
      obtain ⟨c, hc⟩ : ∃ c, s.get? (j + 1) = some c := by
        cases h0 : s.get? (j + 1) with
        | none => rw [List.get?_eq_none] at h0; omega
        | some c => exact ⟨c, rfl⟩
      obtain ⟨pr, hpr⟩ : ∃ pr, s.get? j = some pr := by
        cases h0 : s.get? j with
        | none => rw [List.get?_eq_none] at h0; omega
        | some pr => exact ⟨pr, rfl⟩
      right
      refine ⟨j, pr, c, hpr, hc, ?_⟩
      have := ratedRows_get?_succ s j c pr hc hpr
      rw [this] at hn
      injection hn with hn
      exact hn.symm
  · rintro (⟨x, hx, rfl⟩ | ⟨i, pr, c, hpr, hc, rfl⟩)
    · exact List.get?_mem (ratedRows_get?_zero s x hx)
    · exact List.get?_mem (ratedRows_get?_succ s i c pr hc hpr)

/-- The percent change the detector computes for the consecutive pair at
positions `i`, `i+1` of a per-date series. -/
def pairRate (pr c : Nat × ℚ) : PVal := scale100 (fdiv (c.2 - pr.2) pr.2)

theorem absGT_imp_not_nan {p : PVal} {t : ℚ} (h : p.absGT t = true) : p.isNan = false := by
  cases p <;> simp_all [PVal.absGT, PVal.isNan]

theorem mem_itemEvents (code : String) (pd : List (Nat × ℚ)) (t : ℚ)
    (e : AnomalyEvent) :
    e ∈ itemEvents code pd t ↔
      ∃ i pr c, pd.get? i = some pr ∧ pd.get? (i + 1) = some c ∧
        e = ⟨code, c.1, pairRate pr c, c.2⟩ ∧ (pairRate pr c).absGT t = true := by
  constructor
  · intro he
    rw [itemEvents] at he
    by_cases hlen : 1 < pd.length
    · rw [if_pos hlen] at he
      obtain ⟨z, hz, hfz⟩ := List.mem_filterMap.1 he
      by_cases hcond : z.2.2.absGT t && !z.2.2.isNan
      · rw [if_pos hcond] at hfz
        injection hfz with hfz
        rcases (mem_ratedRows pd z).1 hz with ⟨x, hx, rfl⟩ | ⟨i, pr, c, hpr, hc, rfl⟩
        · simp [PVal.absGT, PVal.isNan] at hcond
        · refine ⟨i, pr, c, hpr, hc, hfz.symm, ?_⟩
          simp only [Bool.and_eq_true] at hcond
          exact hcond.1
      · rw [if_neg hcond] at hfz; cases hfz
    · rw [if_neg hlen] at he; cases he
  · rintro ⟨i, pr, c, hpr, hc, rfl, habs⟩
    rw [itemEvents, if_pos]
    · refine List.mem_filterMap.2 ⟨(c, some (c.2 - pr.2), pairRate pr c), ?_, ?_⟩
      · exact (mem_ratedRows pd _).2 (Or.inr ⟨i, pr, c, hpr, hc, rfl⟩)
      · simp [habs, absGT_imp_not_nan habs]
    · have := (List.get?_eq_some.1 hc).1
      omega

theorem itemSeries_fst (records : List InventoryRecord) (code : String) :
    (itemSeries records code).map Prod.fst =
      groupKeys (fun a b : Nat => a ≤ b)
        ((records.filter (fun r => r.itemCode = code)).map (·.snapDate)) := by
  rw [itemSeries, dailyTotals, List.map_map]
  simp [Function.comp_def]

theorem mem_itemSeries_code (records : List InventoryRecord) (code : String)
    {i : Nat} {pr : Nat × ℚ} (h : (itemSeries records code).get? i = some pr) :
    code ∈ records.map (·.itemCode) := by
  have hmem : pr ∈ itemSeries records code := List.get?_mem h
  rw [itemSeries, dailyTotals] at hmem
  obtain ⟨d, hd, _⟩ := List.mem_map.1 hmem
  rw [mem_groupKeys] at hd
  obtain ⟨r, hr, _⟩ := List.mem_map.1 hd
  obtain ⟨hrrec, hrcode⟩ := List.mem_filter.1 hr
  refine List.mem_map.2 ⟨r, hrrec, ?_⟩
  exact of_decide_eq_true hrcode

/-- Exactly the spec's anomaly-set characterization: `e` is an emitted event
iff `e` is a per-item consecutive-date pair of the item's own per-date total
series whose percent change (the trend formula with the IEEE zero-baseline
behaviour) is defined (not the NaN sentinel) and exceeds the threshold in
absolute value. -/
def specAnomalous (records : List InventoryRecord) (t : ℚ) (e : AnomalyEvent) : Prop :=
  ∃ i pr c, (itemSeries records e.itemCode).get? i = some pr ∧
    (itemSeries records e.itemCode).get? (i + 1) = some c ∧
    e.date = c.1 ∧ e.qty = c.2 ∧ e.rate = pairRate pr c ∧
    e.rate ≠ PVal.nan ∧ e.rate.absGT t = true

theorem mem_detect_anomalies (records : List InventoryRecord) (t : ℚ) (e : AnomalyEvent) :
    e ∈ detect_anomalies records t ↔ specAnomalous records t e := by
  rw [detect_anomalies, List.mem_flatMap]
  constructor
  · rintro ⟨p, hp, he⟩
    obtain ⟨i, pr, c, hpr, hc, rfl, habs⟩ := (mem_itemEvents p _ t e).1 he
    refine ⟨i, pr, c, hpr, hc, rfl, rfl, rfl, ?_, habs⟩
    intro hnan
    have hnan' : pairRate pr c = PVal.nan := hnan
    have := absGT_imp_not_nan habs
    rw [hnan'] at this
    simp [PVal.isNan] at this
  · rintro ⟨i, pr, c, hpr, hc, hdate, hqty, hrate, _, habs⟩
    refine ⟨e.itemCode, ?_, ?_⟩
    · rw [mem_uniqueKeep]
      exact mem_itemSeries_code records e.itemCode hpr
    · refine (mem_itemEvents e.itemCode _ t e).2 ⟨i, pr, c, hpr, hc, ?_, hrate ▸ habs⟩
      cases e
      simp_all

theorem one_lt_length_of_two_mem {α : Type} {l : List α} {a b : α}
    (ha : a ∈ l) (hb : b ∈ l) (hab : a ≠ b) : 1 < l.length := by
  cases l with
  | nil => simp at ha
  | cons x t =>
    cases t with
    | nil =>
      rw [List.mem_singleton] at ha hb
      exact absurd (ha.trans hb.symm) hab
    | cons y t' => simp [List.length_cons]

theorem mem_dates_of_mem_itemSeries (records : List InventoryRecord) (code : String)
    {i : Nat} {pr : Nat × ℚ} (h : (itemSeries records code).get? i = some pr) :
    pr.1 ∈ records.map (·.snapDate) := by
  have h1 : ((itemSeries records code).map Prod.fst).get? i = some pr.1 := by
    rw [List.get?_map, h]; rfl
  have h2 := List.get?_mem h1
  rw [itemSeries_fst, mem_groupKeys] at h2
  obtain ⟨r, hr, hrd⟩ := List.mem_map.1 h2
  exact List.mem_map.2 ⟨r, (List.mem_filter.1 hr).1, hrd⟩

theorem itemSeries_dates_ne (records : List InventoryRecord) (code : String)
    {i j : Nat} {pr c : Nat × ℚ} (hij : i ≠ j)
    (h1 : (itemSeries records code).get? i = some pr)
    (h2 : (itemSeries records code).get? j = some c) : pr.1 ≠ c.1 := by
  have hnd : ((itemSeries records code).map Prod.fst).Nodup := by
    rw [itemSeries_fst]
    exact nodup_groupKeys _ _
  have g1 : ((itemSeries records code).map Prod.fst).get? i = some pr.1 := by
    rw [List.get?_map, h1]; rfl
  have g2 : ((itemSeries records code).map Prod.fst).get? j = some c.1 := by
    rw [List.get?_map, h2]; rfl
  obtain ⟨hi, hgi⟩ := List.get?_eq_some.1 g1
  obtain ⟨hj, hgj⟩ := List.get?_eq_some.1 g2
  intro he
  have : (⟨i, hi⟩ : Fin _) = ⟨j, hj⟩ := by
    rw [← hnd.get_inj_iff]
    rw [hgi, hgj, he]
  exact hij (by simpa using congrArg Fin.val this)

theorem mem_anomaly_detection (records : List InventoryRecord) (e : AnomalyEvent) :
    e ∈ anomaly_detection records ↔ specAnomalous records 50 e := by
  rw [anomaly_detection]
  by_cases hg : 1 < (uniqueKeep (records.map (·.snapDate))).length
  · rw [if_pos hg]
    exact mem_detect_anomalies records 50 e
  · rw [if_neg hg]
    simp only [List.not_mem_nil, false_iff]
    rintro ⟨i, pr, c, hpr, hc, -, -, -, -, -⟩
    have hne : pr.1 ≠ c.1 :=
      itemSeries_dates_ne records e.itemCode (by omega) hpr hc
    have m1 : pr.1 ∈ uniqueKeep (records.map (·.snapDate)) :=
      (mem_uniqueKeep _ _).2 (mem_dates_of_mem_itemSeries records e.itemCode hpr)
    have m2 : c.1 ∈ uniqueKeep (records.map (·.snapDate)) :=
      (mem_uniqueKeep _ _).2 (mem_dates_of_mem_itemSeries records e.itemCode hc)
    exact hg (one_lt_length_of_two_mem m1 m2 hne)

/-- C2: for every record set and every threshold, the emitted anomaly events —
of the dashboard's `detect_anomalies` and of the analyzer's
`anomaly_detection` (fixed threshold 50) alike — are exactly the per-item
consecutive-date pairs of the item's own per-date total series (the trend
calculator's grouping and percent-change formula) whose percent change is
defined (not the NaN sentinel) and strictly exceeds the threshold in absolute
value; an item whose series has a single date yields no pair, hence no
event. -/
theorem claim_C2_anomaly_set_exact (records : List InventoryRecord) (t : ℚ)
    (e : AnomalyEvent) :
    (e ∈ detect_anomalies records t ↔ specAnomalous records t e) ∧
    (e ∈ anomaly_detection records ↔ specAnomalous records 50 e) :=
  ⟨mem_detect_anomalies records t e, mem_anomaly_detection records e⟩

theorem absGT_mono {p : PVal} {t1 t2 : ℚ} (h : t1 ≤ t2) (hp : p.absGT t2 = true) :
    p.absGT t1 = true := by
  cases p with
  | num q =>
    simp only [PVal.absGT, decide_eq_true_eq] at hp ⊢
    exact lt_of_le_of_lt h hp
  | nan => simp [PVal.absGT] at hp
  | posInf => rfl
  | negInf => rfl

/-- C6: lowering the anomaly threshold never removes a flagged event — the
event set at the lower threshold contains the event set at the higher one. -/
theorem claim_C6_threshold_monotone (records : List InventoryRecord) (t1 t2 : ℚ)
    (h12 : t1 < t2) (e : AnomalyEvent) (he : e ∈ detect_anomalies records t2) :
    e ∈ detect_anomalies records t1 := by
  obtain ⟨i, pr, c, hpr, hc, hd, hq, hr, hn, habs⟩ := (mem_detect_anomalies records t2 e).1 he
  exact (mem_detect_anomalies records t1 e).2
    ⟨i, pr, c, hpr, hc, hd, hq, hr, hn, absGT_mono (le_of_lt h12) habs⟩

/-- Record set whose first-day total is zero and second-day total is five:
the zero-baseline case the spec calls out. -/
def exZeroBase : List InventoryRecord :=
  [⟨"A001", "P1", "W1", 1, some 0, none⟩,
   ⟨"A001", "P1", "W1", 2, some 5, none⟩]

theorem exZeroBase_dailyTotals : dailyTotals exZeroBase = [(1, 0), (2, 5)] := by
  norm_num [dailyTotals, exZeroBase, groupKeys, uniqueKeep, uniqueKeepAux,
    List.insertionSort, List.orderedInsert, qsum, List.filterMap_cons,
    List.sum_cons, List.sum_nil, List.filter]

/-- C1 counterexample: on `exZeroBase` the trend percent change over the
zero baseline is `+inf`, which is not the NaN null sentinel and which
`pd.isna` (the downstream undefinedness test) does not treat as
not-a-value — refuting the claim that a zero previous total always yields
the undefined sentinel. -/
theorem claim_C1_counterexample :
    (trend_analysis exZeroBase).table =
      some [((1, 0), none, PVal.nan), ((2, 5), some 5, PVal.posInf)] ∧
    PVal.posInf ≠ PVal.nan ∧ PVal.posInf.isNan = false := by
  refine ⟨?_, by simp, rfl⟩
  rw [trend_analysis]
  rw [exZeroBase_dailyTotals]
  norm_num [ratedRows, ratedGo, fdiv, scale100, round2P, PVal.isNan]

/-- C1 amended: when the previous day's total is exactly zero, the percent
change of the next trend row (and the detector's pair rate, which uses the
same `pairRate`) is the NaN sentinel only when the current total is also
zero; when the current total is nonzero it is a signed infinity — a defined
value for `pd.isna` — and in either case the computation is total (no
division fault is ever raised).  `itemSeries` is `dailyTotals` of the
item-filtered records, so the statement covers the per-item series too. -/
theorem claim_C1_zero_baseline_amended (records : List InventoryRecord) (i : Nat)
    (pr c : Nat × ℚ)
    (hpr : (dailyTotals records).get? i = some pr)
    (hc : (dailyTotals records).get? (i + 1) = some c)
    (hz : pr.2 = 0) :
    pairRate pr c =
      (if c.2 = 0 then PVal.nan else if 0 < c.2 then PVal.posInf else PVal.negInf) ∧
    ∃ tbl, (trend_analysis records).table = some tbl ∧
      tbl.get? (i + 1) = some (c, some (c.2 - pr.2),
        if c.2 = 0 then PVal.nan else if 0 < c.2 then PVal.posInf else PVal.negInf) := by
  have hrate : pairRate pr c =
      (if c.2 = 0 then PVal.nan else if 0 < c.2 then PVal.posInf else PVal.negInf) := by
    rw [pairRate, hz, fdiv]
    rw [if_pos rfl]
    by_cases h0 : c.2 = 0
    · rw [if_pos (by rw [h0]; ring), if_pos h0]; rfl
    · rw [if_neg (by rw [sub_zero]; exact h0), if_neg h0]
      by_cases hpos : 0 < c.2
      · rw [if_pos (by rw [sub_zero]; exact hpos), if_pos hpos]; rfl
      · rw [if_neg (by rw [sub_zero]; exact hpos), if_neg hpos]; rfl
  refine ⟨hrate, ?_⟩
  have hlen : 1 < (dailyTotals records).length := by
    have := (List.get?_eq_some.1 hc).1
    omega
  refine ⟨(ratedRows (dailyTotals records)).map (fun z => (z.1, z.2.1, round2P z.2.2)), ?_, ?_⟩
  · rw [trend_analysis]
    simp only [if_pos hlen]
  · rw [List.get?_map, ratedRows_get?_succ (dailyTotals records) i c pr hc hpr]
    have : scale100 (fdiv (c.2 - pr.2) pr.2) = pairRate pr c := rfl
    simp only [Option.map_some']
    rw [this, hrate]
    by_cases h0 : c.2 = 0
    · simp [h0, round2P]
    · by_cases hpos : 0 < c.2 <;> simp [h0, hpos, round2P]

/-- C1 amended witness: the theorem applied to `exZeroBase` at the pair
`(1, 0), (2, 5)`. -/
theorem claim_C1_zero_baseline_amended_witness :
    pairRate (1, 0) (2, 5) = PVal.posInf ∧
    ∃ tbl, (trend_analysis exZeroBase).table = some tbl ∧
      tbl.get? 1 = some ((2, 5), some ((5:ℚ) - 0), PVal.posInf) := by
  have h := claim_C1_zero_baseline_amended exZeroBase 0 (1, 0) (2, 5)
    (by rw [exZeroBase_dailyTotals]; rfl) (by rw [exZeroBase_dailyTotals]; rfl) rfl
  refine ⟨?_, ?_⟩
  · have := h.1
    norm_num at this ⊢
    exact this
  · obtain ⟨tbl, htbl, hget⟩ := h.2
    refine ⟨tbl, htbl, ?_⟩
    rw [hget]
    norm_num

/-- Records in which one row's quantity is the null sentinel (a non-numeric
cell), sharing its date with a numeric row. -/
def exNullQty : List InventoryRecord :=
  [⟨"A001", "P1", "W1", 1, some 5, none⟩,
   ⟨"B001", "P2", "W1", 1, none, none⟩]

/-- The same records with the null quantity replaced by a literal zero. -/
def exNullQtyZero : List InventoryRecord :=
  [⟨"A001", "P1", "W1", 1, some 5, none⟩,
   ⟨"B001", "P2", "W1", 1, some 0, none⟩]

/-- C3 counterexample: the null quantity does not propagate — the per-date
total is the defined number 5 (not the undefined sentinel), identical to the
total obtained by substituting zero for the null, and the warehouse
aggregate likewise produces a defined total/mean while `count` silently
drops the null row. -/
theorem claim_C3_counterexample :
    dailyTotals exNullQty = [(1, 5)] ∧
    dailyTotals exNullQty = dailyTotals exNullQtyZero ∧
    (warehouse_analysis exNullQty).map (fun s => (s.total, s.mean, s.itemCount)) =
      [(5, some 5, 1)] := by
  refine ⟨?_, ?_, ?_⟩
  · norm_num [dailyTotals, exNullQty, groupKeys, uniqueKeep, uniqueKeepAux,
      List.insertionSort, List.orderedInsert, qsum, List.filterMap_cons,
      List.sum_cons, List.sum_nil, List.filter]
  · norm_num [dailyTotals, exNullQty, exNullQtyZero, groupKeys, uniqueKeep,
      uniqueKeepAux, List.insertionSort, List.orderedInsert, qsum,
      List.filterMap_cons, List.sum_cons, List.sum_nil, List.filter]
  · norm_num [warehouse_analysis, warehouseGroups, exNullQty, groupKeys,
      uniqueKeep, uniqueKeepAux, List.insertionSort, List.orderedInsert,
      sortDesc, qsum, qmean, qcount, List.filterMap_cons, List.sum_cons,
      List.sum_nil, List.filter, round2, rhe]

/-- Replacing a null quantity by a literal zero, the substitution the spec
says must be observable (it is not, in sums). -/
def zfill (r : InventoryRecord) : InventoryRecord := { r with qty := some (r.qty.getD 0) }

theorem qsum_map_some {γ : Type} (l : List γ) (g : γ → ℚ) :
    qsum (l.map (fun x => some (g x))) = (l.map g).sum := by
  induction l with
  | nil => rfl
  | cons a t ih => simp [qsum, List.filterMap_cons, List.sum_cons] at ih ⊢; rw [ih]

theorem qsum_getD (l : List (Option ℚ)) : qsum l = (l.map (fun o => o.getD 0)).sum := by
  induction l with
  | nil => rfl
  | cons a t ih =>
    cases a with
    | none => simp [qsum, List.filterMap_cons, List.sum_cons] at ih ⊢; rw [ih]
    | some q => simp [qsum, List.filterMap_cons, List.sum_cons] at ih ⊢; rw [ih]

theorem qsum_zfill (l : List InventoryRecord) :
    qsum ((l.map zfill).map (·.qty)) = qsum (l.map (·.qty)) := by
  rw [List.map_map]
  have h1 : ((·.qty) ∘ zfill) = fun r : InventoryRecord => some (r.qty.getD 0) := rfl
  rw [h1, qsum_map_some, qsum_getD, List.map_map]
  rfl

theorem parseRows_isSome (rows : List RawRow) (h : ∀ r ∈ rows, r.rawDate.isSome) :
    ∃ l, parseRows rows = some l := by
  induction rows with
  | nil => exact ⟨[], rfl⟩
  | cons r rest ih =>
    obtain ⟨d, hd⟩ := Option.isSome_iff_exists.1 (h r (List.mem_cons_self _ _))
    obtain ⟨l, hl⟩ := ih (fun r' hr' => h r' (List.mem_cons_of_mem _ hr'))
    exact ⟨_, by rw [parseRows, hd, hl]; rfl⟩

theorem parseRows_eq_none (rows : List RawRow) (h : ∃ r ∈ rows, r.rawDate = none) :
    parseRows rows = none := by
  induction rows with
  | nil => simp at h
  | cons r rest ih =>
    obtain ⟨r', hr', hd⟩ := h
    rcases List.mem_cons.1 hr' with rfl | hmem
    · rw [parseRows, hd]
    · rw [parseRows]
      cases hrd : r.rawDate with
      | none => rfl
      | some d => rw [ih ⟨r', hmem, hd⟩]; rfl

theorem load_data_ok (src : RawSource) (h1 : src.readable = true)
    (h2 : src.hasDateCol = true) (h3 : src.hasQtyCol = true)
    (h4 : src.hasPkgCol = true) (h5 : ∀ r ∈ src.rows, r.rawDate.isSome) :
    ∃ recs, load_data src = Except.ok recs := by
  obtain ⟨l, hl⟩ := parseRows_isSome src.rows h5
  refine ⟨l, ?_⟩
  rw [load_data, if_neg (by rw [h1]; simp), if_neg (by rw [h2]; simp), hl]
  dsimp only
  rw [if_neg (by rw [h3]; simp), if_neg (by rw [h4]; simp)]

/-- C3 amended: non-numeric quantities coerce to the null sentinel and the
load never raises because of them, but nulls do **not** propagate through the
aggregations as undefined values — pandas skips them, so every per-date total
and warehouse total is indistinguishable from the result of substituting zero
for the nulls (and means/counts simply ignore the null rows). -/
theorem claim_C3_nulls_skipped_amended (records : List InventoryRecord) (src : RawSource)
    (h1 : src.readable = true) (h2d : src.hasDateCol = true)
    (h2q : src.hasQtyCol = true) (h2p : src.hasPkgCol = true)
    (h3 : ∀ r ∈ src.rows, r.rawDate.isSome) :
    dailyTotals (records.map zfill) = dailyTotals records ∧
    (warehouseGroups (records.map zfill)).map (fun s => (s.warehouse, s.total)) =
      (warehouseGroups records).map (fun s => (s.warehouse, s.total)) ∧
    ∃ recs, load_data src = Except.ok recs := by
  have hdates : (records.map zfill).map (·.snapDate) = records.map (·.snapDate) := by
    rw [List.map_map]; rfl
  have hfilterD : ∀ d : Nat, (records.map zfill).filter (fun r => r.snapDate = d) =
      (records.filter (fun r => r.snapDate = d)).map zfill := by
    intro d
    rw [List.filter_map]
    rfl
  have hfilterW : ∀ w : String, (records.map zfill).filter (fun r => r.warehouse = w) =
      (records.filter (fun r => r.warehouse = w)).map zfill := by
    intro w
    rw [List.filter_map]
    rfl
  refine ⟨?_, ?_, ?_⟩
  · rw [dailyTotals, dailyTotals, hdates]
    refine List.map_congr_left (fun d _ => ?_)
    rw [hfilterD d, qsum_zfill]
  · rw [warehouseGroups, warehouseGroups]
    have hw : (records.map zfill).map (·.warehouse) = records.map (·.warehouse) := by
      rw [List.map_map]; rfl
    rw [hw, List.map_map, List.map_map]
    refine List.map_congr_left (fun w _ => ?_)
    dsimp only [Function.comp]
    rw [hfilterW w, qsum_zfill]
  · exact load_data_ok src h1 h2d h2q h2p h3

/-- Raw source with a non-numeric quantity cell (coerced to null), all six
columns present and all dates parseable. -/
def srcNullQty : RawSource :=
  ⟨true, true, true, true, true, true, true,
   [⟨"A001", "P1", "W1", some 1, some 5, none⟩,
    ⟨"B001", "P2", "W1", some 1, none, none⟩]⟩

/-- C3 amended witness: the theorem applied to `exNullQty` and `srcNullQty`. -/
theorem claim_C3_nulls_skipped_amended_witness :
    dailyTotals (exNullQty.map zfill) = dailyTotals exNullQty ∧
    ∃ recs, load_data srcNullQty = Except.ok recs := by
  have h := claim_C3_nulls_skipped_amended exNullQty srcNullQty rfl rfl rfl rfl
    (by intro r hr; rcases List.mem_cons.1 hr with rfl | hr' <;> simp_all [srcNullQty])
  exact ⟨h.1, h.2.2⟩

/-- One warehouse observed on two snapshot dates with different quantities:
separates a full-set aggregate from a latest-date aggregate. -/
def exTwoDates : List InventoryRecord :=
  [⟨"i1", "n1", "W1", 1, some 5, none⟩,
   ⟨"i1", "n1", "W1", 2, some 3, none⟩]

/-- C4 counterexample: the core warehouse total of `W1` is 8 (both dates)
while the dashboard's warehouse chart reports 3 (latest date only) — the
dashboard does not compute the warehouse aggregate under the core's
no-date-restriction contract. -/
theorem claim_C4_counterexample :
    (warehouse_analysis exTwoDates).map (fun s => (s.warehouse, s.total)) = [("W1", 8)] ∧
    (create_warehouse_chart exTwoDates).map (fun s => (s.warehouse, s.total)) = [("W1", 3)] ∧
    (3 : ℚ) ≠ 8 := by
  refine ⟨?_, ?_, by norm_num⟩
  · norm_num [warehouse_analysis, warehouseGroups, exTwoDates, groupKeys,
      uniqueKeep, uniqueKeepAux, List.insertionSort, List.orderedInsert,
      sortDesc, qsum, qmean, qcount, List.filterMap_cons, List.sum_cons,
      List.sum_nil, List.filter, round2, rhe]
  · norm_num [create_warehouse_chart, exTwoDates, groupKeys, uniqueKeep,
      uniqueKeepAux, List.insertionSort, List.orderedInsert, sortAsc, qsum,
      listMax, List.filterMap_cons, List.sum_cons, List.sum_nil, List.filter]

/-- C4 amended: the core `warehouse_analysis` total of every emitted row is
the (rounded) quantity sum over **all** records of that warehouse, with no
date restriction; the dashboard's `create_warehouse_chart` total is instead
the quantity sum over only the records at the latest snapshot date. -/
theorem claim_C4_warehouse_scope_amended (records : List InventoryRecord) :
    (∀ s ∈ warehouse_analysis records,
      s.total = round2 (qsum ((records.filter (fun r => r.warehouse = s.warehouse)).map (·.qty)))) ∧
    (∀ s ∈ create_warehouse_chart records,
      s.total = qsum (((records.filter
          (fun r => r.snapDate = listMax (records.map (·.snapDate)))).filter
          (fun r => r.warehouse = s.warehouse)).map (·.qty))) := by
  constructor
  · intro s hs
    rw [warehouse_analysis, mem_sortDesc, warehouseGroups] at hs
    obtain ⟨w, _, rfl⟩ := List.mem_map.1 hs
    rfl
  · intro s hs
    rw [create_warehouse_chart, mem_sortAsc] at hs
    obtain ⟨w, _, rfl⟩ := List.mem_map.1 hs
    rfl

/-- C4 amended witness: the theorem applied to `exTwoDates` and its single
warehouse row on each side. -/
theorem claim_C4_warehouse_scope_amended_witness :
    ((⟨"W1", 8, some 4, 2, 1⟩ : WarehouseStat) ∈ warehouse_analysis exTwoDates ∧
      (8 : ℚ) = round2 (qsum ((exTwoDates.filter
        (fun r => r.warehouse = "W1")).map (·.qty)))) ∧
    ((⟨"W1", 3, 1⟩ : DashWarehouseStat) ∈ create_warehouse_chart exTwoDates ∧
      (3 : ℚ) = qsum (((exTwoDates.filter
          (fun r => r.snapDate = listMax (exTwoDates.map (·.snapDate)))).filter
          (fun r => r.warehouse = "W1")).map (·.qty))) := by
  have hm1 : (⟨"W1", 8, some 4, 2, 1⟩ : WarehouseStat) ∈ warehouse_analysis exTwoDates := by
    norm_num [warehouse_analysis, warehouseGroups, exTwoDates, groupKeys,
      uniqueKeep, uniqueKeepAux, List.insertionSort, List.orderedInsert,
      sortDesc, qsum, qmean, qcount, List.filterMap_cons, List.sum_cons,
      List.sum_nil, List.filter, round2, rhe]
  have hm2 : (⟨"W1", 3, 1⟩ : DashWarehouseStat) ∈ create_warehouse_chart exTwoDates := by
    norm_num [create_warehouse_chart, exTwoDates, groupKeys, uniqueKeep,
      uniqueKeepAux, List.insertionSort, List.orderedInsert, sortAsc, qsum,
      listMax, List.filterMap_cons, List.sum_cons, List.sum_nil, List.filter]
  exact ⟨⟨hm1, (claim_C4_warehouse_scope_amended exTwoDates).1 _ hm1⟩,
    ⟨hm2, (claim_C4_warehouse_scope_amended exTwoDates).2 _ hm2⟩⟩

/-- Two warehouses with equal totals whose encounter order (`WB` first)
differs from their key order (`WA` first). -/
def exTieWh : List InventoryRecord :=
  [⟨"i1", "n", "WB", 1, some 5, none⟩,
   ⟨"i2", "n", "WA", 1, some 5, none⟩]

/-- C5 counterexample: on `exTieWh` the two warehouse groups are tied at
total 5 yet are emitted as `[WA, WB]` — the ascending key order that
`groupby` produced — while the original encounter order is `[WB, WA]`:
ties do not appear in encounter order. -/
theorem claim_C5_counterexample :
    (warehouse_analysis exTieWh).map (fun s => (s.warehouse, s.total)) =
      [("WA", 5), ("WB", 5)] ∧
    uniqueKeep (exTieWh.map (·.warehouse)) = ["WB", "WA"] ∧
    ("WA" : String) ≠ "WB" := by
  refine ⟨?_, by simp [exTieWh, uniqueKeep, uniqueKeepAux], by simp⟩
  norm_num [warehouse_analysis, warehouseGroups, exTieWh, groupKeys,
    uniqueKeep, uniqueKeepAux, List.insertionSort, List.orderedInsert,
    sortDesc, strLe, charListLe, qsum, qmean, qcount, List.filterMap_cons,
    List.sum_cons, List.sum_nil, List.filter, round2, rhe,
    show decide (("WA" : String) = "WB") = false from rfl,
    show decide (("WB" : String) = "WA") = false from rfl,
    show decide (("WA" : String) = "WA") = true from rfl,
    show decide (("WB" : String) = "WB") = true from rfl]

theorem warehouseGroups_pairwise_key (records : List InventoryRecord) :
    (warehouseGroups records).Pairwise
      (fun a b => strLe a.warehouse b.warehouse ∧ a.warehouse ≠ b.warehouse) := by
  rw [warehouseGroups, List.pairwise_map]
  exact (pairwise_strict_groupKeys strLe (records.map (·.warehouse))).imp (fun h => h)

/-- C5 amended: warehouses and products are each emitted sorted descending by
total quantity, but groups tied on total appear in **ascending group-key
order** (the order `groupby` emitted them in), not in original encounter
order. -/
theorem claim_C5_sort_order_amended (records : List InventoryRecord) :
    (warehouse_analysis records).Pairwise (fun a b => b.total ≤ a.total) ∧
    (warehouse_analysis records).Pairwise (fun a b =>
      b.total < a.total ∨ (a.total = b.total ∧
        strLe a.warehouse b.warehouse ∧ a.warehouse ≠ b.warehouse)) ∧
    (product_analysis records).Pairwise (fun a b => b.total ≤ a.total) ∧
    (product_analysis records).Pairwise (fun a b =>
      b.total < a.total ∨ (a.total = b.total ∧
        pairLe (a.itemCode, a.itemName) (b.itemCode, b.itemName) ∧
        (a.itemCode, a.itemName) ≠ (b.itemCode, b.itemName))) := by
  have hw := pairwise_sortDesc_stable (fun s : WarehouseStat => s.total)
    (fun a b => strLe a.warehouse b.warehouse ∧ a.warehouse ≠ b.warehouse)
    (warehouseGroups records) (warehouseGroups_pairwise_key records)
  have hpkeys := pairwise_strict_groupKeys pairLe
    ((records.filter (fun r => r.snapDate = listMax (records.map (·.snapDate)))).map
      (fun r => (r.itemCode, r.itemName)))
  have hpg : ((groupKeys pairLe
      ((records.filter (fun r => r.snapDate = listMax (records.map (·.snapDate)))).map
        (fun r => (r.itemCode, r.itemName)))).map (fun k =>
        ({ itemCode := k.1
           itemName := k.2
           total := qsum (((records.filter
              (fun r => r.snapDate = listMax (records.map (·.snapDate)))).filter
              (fun r => r.itemCode = k.1 ∧ r.itemName = k.2)).map (·.qty))
           whCount := ((records.filter
              (fun r => r.snapDate = listMax (records.map (·.snapDate)))).filter
              (fun r => r.itemCode = k.1 ∧ r.itemName = k.2)).length } : ProductStat))).Pairwise
      (fun a b => pairLe (a.itemCode, a.itemName) (b.itemCode, b.itemName) ∧
        (a.itemCode, a.itemName) ≠ (b.itemCode, b.itemName)) := by
    rw [List.pairwise_map]
    exact hpkeys.imp (fun {k k'} h => ⟨by simpa using h.1, by simpa using h.2⟩)
  have hp := pairwise_sortDesc_stable (fun s : ProductStat => s.total)
    (fun a b => pairLe (a.itemCode, a.itemName) (b.itemCode, b.itemName) ∧
      (a.itemCode, a.itemName) ≠ (b.itemCode, b.itemName)) _ hpg
  refine ⟨?_, hw, ?_, hp⟩
  · exact hw.imp (fun h => by
      rcases h with h | ⟨h, _⟩
      · exact le_of_lt h
      · exact le_of_eq h.symm)
  · exact hp.imp (fun h => by
      rcases h with h | ⟨h, _⟩
      · exact le_of_lt h
      · exact le_of_eq h.symm)

/-- The spec's own worked example: item `A001` with quantity 100 on day 1 and
160 on day 2 (percent change +60). -/
def exAnom : List InventoryRecord :=
  [⟨"A001", "P1", "W1", 1, some 100, none⟩,
   ⟨"A001", "P1", "W1", 2, some 160, none⟩]

theorem exAnom_event_mem (t : ℚ) (h : t < 60) (hn : ¬ t < -60) :
    (⟨"A001", 2, PVal.num 60, 160⟩ : AnomalyEvent) ∈ detect_anomalies exAnom t := by
  have habs : |(60 : ℚ)| = 60 := by norm_num
  norm_num [detect_anomalies, exAnom, uniqueKeep, uniqueKeepAux, itemEvents,
    itemSeries, dailyTotals, groupKeys, List.insertionSort, List.orderedInsert,
    qsum, List.filterMap_cons, List.sum_cons, List.sum_nil, List.filter,
    ratedRows, ratedGo, fdiv, scale100, PVal.absGT, PVal.isNan, List.flatMap_cons,
    List.flatMap_nil, habs, h]

/-- C6 witness: the monotonicity theorem applied to `exAnom` with thresholds
50 < 55 and the +60% event flagged at 55. -/
theorem claim_C6_threshold_monotone_witness :
    (50 : ℚ) < 55 ∧
    (⟨"A001", 2, PVal.num 60, 160⟩ : AnomalyEvent) ∈ detect_anomalies exAnom 55 ∧
    (⟨"A001", 2, PVal.num 60, 160⟩ : AnomalyEvent) ∈ detect_anomalies exAnom 50 := by
  have h55 := exAnom_event_mem 55 (by norm_num) (by norm_num)
  exact ⟨by norm_num, h55,
    claim_C6_threshold_monotone exAnom 50 55 (by norm_num) _ h55⟩

/-- C7: report generation is deterministic in its input — for the same record
set, two generated documents with different timestamps agree byte-for-byte
once the timestamp line (index 1) is removed, and that line is exactly the
timestamp header.  Stated on `Except` so the single-date failure path is
covered as well (it does not depend on the timestamp either). -/
theorem claim_C7_report_deterministic (records : List InventoryRecord) (t1 t2 : String) :
    (generate_report records t1).map (fun d => d.eraseIdx 1) =
      (generate_report records t2).map (fun d => d.eraseIdx 1) ∧
    (generate_report records t1).map (fun d => d.get? 1) =
      (generate_report records t1).map (fun _ => some ("**生成時間**: " ++ t1)) := by
  rw [generate_report, generate_report]
  cases trendSection (trend_analysis records) with
  | error e => exact ⟨rfl, rfl⟩
  | ok tl =>
    constructor
    · simp [Except.map, List.eraseIdx_cons_succ, List.eraseIdx_cons_zero]
    · simp [Except.map, List.get?_cons_succ, List.get?_cons_zero]

theorem load_data_fails (src : RawSource)
    (h : src.readable = false ∨ src.hasDateCol = false ∨ src.hasQtyCol = false ∨
      src.hasPkgCol = false ∨ ∃ r ∈ src.rows, r.rawDate = none) :
    ∃ e, load_data src = Except.error e := by
  rw [load_data]
  by_cases h1 : src.readable
  · rw [if_neg (by simp [h1])]
    by_cases h2 : src.hasDateCol
    · rw [if_neg (by simp [h2])]
      cases hp : parseRows src.rows with
      | none => exact ⟨LoadError.badDate, rfl⟩
      | some recs =>
        dsimp only
        by_cases h3 : src.hasQtyCol
        · rw [if_neg (by simp [h3])]
          by_cases h4 : src.hasPkgCol
          · exfalso
            rcases h with h | h | h | h | h
            · rw [h1] at h; cases h
            · rw [h2] at h; cases h
            · rw [h3] at h; cases h
            · rw [h4] at h; cases h
            · rw [parseRows_eq_none src.rows h] at hp; cases hp
          · exact ⟨LoadError.missingColumn, by rw [if_pos (by simp [h4])]⟩
        · exact ⟨LoadError.missingColumn, by rw [if_pos (by simp [h3])]⟩
    · exact ⟨LoadError.missingColumn, by rw [if_pos (by simp [h2])]⟩
  · exact ⟨LoadError.unreadable, by rw [if_pos (by simp [h1])]⟩

theorem basic_statistics_keyError (src : RawSource) (records : List InventoryRecord)
    (h : src.hasCodeCol = false ∨ src.hasNameCol = false ∨ src.hasWhCol = false) :
    basic_statistics src records = Except.error RunError.keyError := by
  rw [basic_statistics]
  by_cases hc : src.hasCodeCol
  · rw [if_neg (by simp [hc])]
    by_cases hn : src.hasNameCol
    · rw [if_neg (by simp [hn])]
      by_cases hw : src.hasWhCol
      · exfalso
        rcases h with h | h | h
        · rw [hc] at h; cases h
        · rw [hn] at h; cases h
        · rw [hw] at h; cases h
      · rw [if_pos (by simp [hw])]
    · rw [if_pos (by simp [hn])]
  · rw [if_pos (by simp [hc])]

/-- Raw source with everything well-formed except that the required item-code
column `客戶料號` is absent. -/
def srcNoCodeCol : RawSource :=
  ⟨true, true, true, true, false, true, true,
   [⟨"A001", "P1", "W1", some 1, some 5, none⟩]⟩

/-- C8 counterexample: with the required `客戶料號` column absent the load
**succeeds** (the loader never touches that column) and the run then raises
an uncaught `KeyError` in `basic_statistics` instead of reporting the boolean
false of a fatal load — refuting the claim that a missing required column
fails the load and makes the run report false. -/
theorem claim_C8_counterexample :
    load_data srcNoCodeCol = Except.ok [⟨"A001", "P1", "W1", 1, some 5, none⟩] ∧
    run_full_analysis srcNoCodeCol "2025-01-01 08:00:00" =
      RunOutcome.raised RunError.keyError ∧
    run_full_analysis srcNoCodeCol "2025-01-01 08:00:00" ≠ RunOutcome.loadFailed := by
  have hload : load_data srcNoCodeCol =
      Except.ok [⟨"A001", "P1", "W1", 1, some 5, none⟩] := rfl
  have hrun : run_full_analysis srcNoCodeCol "2025-01-01 08:00:00" =
      RunOutcome.raised RunError.keyError := by
    rw [run_full_analysis, hload]
    dsimp only
    rw [basic_statistics_keyError srcNoCodeCol _ (Or.inl rfl)]
  exact ⟨hload, hrun, by rw [hrun]; intro hc; cases hc⟩

/-- C8 amended: a missing/unreadable source, an unparseable date in any row,
or the absence of one of the three columns the loader itself touches
(snapshot date, quantity on hand, package quantity) makes the load fail
fatally — the run reports boolean false and writes no report, with no
per-row date recovery.  The absence of the item-code, item-name or warehouse
column is **not** caught at load time: the load succeeds and the run instead
raises an uncaught `KeyError` in `basic_statistics` — still no report, but
the failure is an exception, not the boolean-false load signal. -/
theorem claim_C8_load_failure_amended (src : RawSource) (now : String) :
    ((src.readable = false ∨ src.hasDateCol = false ∨ src.hasQtyCol = false ∨
        src.hasPkgCol = false ∨ ∃ r ∈ src.rows, r.rawDate = none) →
      run_full_analysis src now = RunOutcome.loadFailed ∧
      ∀ doc, run_full_analysis src now ≠ RunOutcome.completed doc) ∧
    (src.readable = true → src.hasDateCol = true → src.hasQtyCol = true →
      src.hasPkgCol = true → (∀ r ∈ src.rows, r.rawDate.isSome) →
      (src.hasCodeCol = false ∨ src.hasNameCol = false ∨ src.hasWhCol = false) →
      run_full_analysis src now = RunOutcome.raised RunError.keyError ∧
      run_full_analysis src now ≠ RunOutcome.loadFailed ∧
      ∀ doc, run_full_analysis src now ≠ RunOutcome.completed doc) := by
  constructor
  · intro h
    obtain ⟨e, he⟩ := load_data_fails src h
    rw [run_full_analysis, he]
    exact ⟨rfl, fun doc hc => by cases hc⟩
  · intro h1 h2 h3 h4 h5 hcol
    obtain ⟨recs, hok⟩ := load_data_ok src h1 h2 h3 h4 h5
    have hrun : run_full_analysis src now = RunOutcome.raised RunError.keyError := by
      rw [run_full_analysis, hok]
      dsimp only
      rw [basic_statistics_keyError src recs hcol]
    refine ⟨hrun, ?_, ?_⟩
    · rw [hrun]
      intro hc
      cases hc
    · intro doc
      rw [hrun]
      intro hc
      cases hc

/-- Raw source whose second row has an unparseable snapshot date (all six
columns present). -/
def srcBadDate : RawSource :=
  ⟨true, true, true, true, true, true, true,
   [⟨"A001", "P1", "W1", some 1, some 5, none⟩,
    ⟨"B001", "P2", "W1", none, some 3, none⟩]⟩

/-- C8 amended witness: the theorem applied to `srcBadDate` (first conjunct,
fatal load) and to `srcNoCodeCol` (second conjunct, late uncaught
`KeyError`). -/
theorem claim_C8_load_failure_amended_witness :
    run_full_analysis srcBadDate "2025-01-01 08:00:00" = RunOutcome.loadFailed ∧
    run_full_analysis srcNoCodeCol "2025-01-01 08:00:00" =
      RunOutcome.raised RunError.keyError := by
  constructor
  · exact ((claim_C8_load_failure_amended srcBadDate "2025-01-01 08:00:00").1
      (Or.inr (Or.inr (Or.inr (Or.inr ⟨⟨"B001", "P2", "W1", none, some 3, none⟩,
        by simp [srcBadDate], rfl⟩))))).1
  · exact ((claim_C8_load_failure_amended srcNoCodeCol "2025-01-01 08:00:00").2
      rfl rfl rfl rfl
      (by intro r hr; rcases List.mem_singleton.1 hr with rfl; rfl)
      (Or.inl rfl)).1

theorem uniqueKeepAux_all_eq {α : Type} [DecidableEq α] (l : List α) (d : α)
    (h : ∀ x ∈ l, x = d) : uniqueKeepAux [d] l = [] := by
  induction l with
  | nil => rfl
  | cons a t ih =>
    have ha : a = d := h a (List.mem_cons_self _ _)
    rw [uniqueKeepAux, if_pos (by rw [ha]; exact List.mem_singleton.2 rfl)]
    exact ih (fun x hx => h x (List.mem_cons_of_mem _ hx))

theorem uniqueKeep_const {α : Type} [DecidableEq α] (l : List α) (d : α)
    (hne : l ≠ []) (h : ∀ x ∈ l, x = d) : uniqueKeep l = [d] := by
  cases l with
  | nil => exact absurd rfl hne
  | cons a t =>
    have ha : a = d := h a (List.mem_cons_self _ _)
    subst ha
    rw [uniqueKeep, uniqueKeepAux, if_neg (by simp)]
    rw [uniqueKeepAux_all_eq t a (fun x hx => h x (List.mem_cons_of_mem _ hx))]

theorem dailyTotals_single_date (records : List InventoryRecord) (d : Nat)
    (hne : records ≠ []) (h : ∀ r ∈ records, r.snapDate = d) :
    dailyTotals records =
      [(d, qsum ((records.filter (fun r => r.snapDate = d)).map (·.qty)))] := by
  have hkeys : groupKeys (fun a b : Nat => a ≤ b) (records.map (·.snapDate)) = [d] := by
    rw [groupKeys, uniqueKeep_const (records.map (·.snapDate)) d
      (by simpa using hne)
      (by rintro x hx; obtain ⟨r, hr, rfl⟩ := List.mem_map.1 hx; exact h r hr)]
    rfl
  rw [dailyTotals, hkeys]
  rfl

/-- C10: after a successful load of a non-empty record set whose rows all
share one snapshot date, the trend table has a single row and no
delta/percent columns, so report composition raises `KeyError` reading them;
the run does not complete and no report document is produced. -/
theorem claim_C10_single_date_report_crash (src : RawSource) (now : String)
    (records : List InventoryRecord) (d : Nat)
    (hload : load_data src = Except.ok records)
    (hne : records ≠ [])
    (hdates : ∀ r ∈ records, r.snapDate = d) :
    run_full_analysis src now = RunOutcome.raised RunError.keyError ∧
    ∀ doc, run_full_analysis src now ≠ RunOutcome.completed doc := by
  have hrows := dailyTotals_single_date records d hne hdates
  have htrend : trend_analysis records =
      { rows := dailyTotals records, table := none } := by
    rw [trend_analysis]
    congr 1
    rw [if_neg (by rw [hrows]; simp)]
  have hsec : trendSection (trend_analysis records) = Except.error RunError.keyError := by
    rw [htrend, trendSection]
    simp only
    rw [if_neg (by rw [hrows]; simp)]
  have hrep : generate_report records now = Except.error RunError.keyError := by
    rw [generate_report, hsec]
  have hout : run_full_analysis src now = RunOutcome.raised RunError.keyError := by
    rw [run_full_analysis, hload]
    dsimp only
    by_cases hcol : src.hasCodeCol = false ∨ src.hasNameCol = false ∨ src.hasWhCol = false
    · rw [basic_statistics_keyError src records hcol]
    · push_neg at hcol
      obtain ⟨hc, hn, hw⟩ := hcol
      rw [Bool.ne_false_iff] at hc hn hw
      have hbasic : basic_statistics src records = Except.ok (basic_stats_of records) := by
        rw [basic_statistics, if_neg (by simp [hc]), if_neg (by simp [hn]),
          if_neg (by simp [hw]), if_neg (by simpa using hne)]
      rw [hbasic]
      dsimp only
      rw [hrep]
  exact ⟨hout, fun doc hc => by rw [hout] at hc; cases hc⟩

/-- Raw source that loads one record (a single snapshot date), all columns
present. -/
def srcSingleDate : RawSource :=
  ⟨true, true, true, true, true, true, true,
   [⟨"A001", "P1", "W1", some 1, some 5, none⟩]⟩

/-- C10 witness: the theorem applied to `srcSingleDate`. -/
theorem claim_C10_single_date_report_crash_witness :
    run_full_analysis srcSingleDate "2025-01-01 08:00:00" =
      RunOutcome.raised RunError.keyError := by
  have hload : load_data srcSingleDate =
      Except.ok [⟨"A001", "P1", "W1", 1, some 5, none⟩] := rfl
  exact (claim_C10_single_date_report_crash srcSingleDate "2025-01-01 08:00:00"
    [⟨"A001", "P1", "W1", 1, some 5, none⟩] 1 hload (by simp)
    (by rintro r hr; rcases List.mem_singleton.1 hr with rfl; rfl)).1

theorem data_append (a b : String) : (a ++ b).data = a.data ++ b.data := rfl

theorem head?_append_left {γ : Type} (l1 l2 : List γ) (c : γ) (h : l1.head? = some c) :
    (l1 ++ l2).head? = some c := by
  cases l1 with
  | nil => simp at h
  | cons x t => simpa using h

theorem str_ne_of_head {s t : String} {c d : Char} (hs : s.data.head? = some c)
    (ht : t.data.head? = some d) (hcd : c ≠ d) : s ≠ t := by
  intro he
  rw [he, ht] at hs
  injection hs with hs
  exact hcd hs.symm

theorem msg1_ne_normal (n : Nat) :
    ("有 " ++ toString n ++ " 個產品庫存為零，建議及時補貨") ≠ normalMsg := by
  have h1 : ("有 " ++ toString n).data.head? = some '有' := by
    rw [data_append]
    exact head?_append_left _ _ _ rfl
  have h2 : ("有 " ++ toString n ++ " 個產品庫存為零，建議及時補貨").data.head? = some '有' := by
    rw [data_append]
    exact head?_append_left _ _ _ h1
  exact str_ne_of_head h2 rfl (by decide)

theorem msg2_ne_normal (n : Nat) :
    ("發現 " ++ toString n ++ " 個庫存異常變化，建議進一步調查原因") ≠ normalMsg := by
  have h1 : ("發現 " ++ toString n).data.head? = some '發' := by
    rw [data_append]
    exact head?_append_left _ _ _ rfl
  have h2 : ("發現 " ++ toString n ++ " 個庫存異常變化，建議進一步調查原因").data.head? = some '發' := by
    rw [data_append]
    exact head?_append_left _ _ _ h1
  exact str_ne_of_head h2 rfl (by decide)

theorem msg3_ne_normal (w1 w2 : String) :
    ("庫存分布不均，" ++ w1 ++ "庫存最多，" ++ w2 ++ "庫存最少，考慮調撥平衡") ≠ normalMsg := by
  have h1 : ("庫存分布不均，" ++ w1).data.head? = some '庫' := by
    rw [data_append]
    exact head?_append_left _ _ _ rfl
  have h2 : ("庫存分布不均，" ++ w1 ++ "庫存最多，").data.head? = some '庫' := by
    rw [data_append]
    exact head?_append_left _ _ _ h1
  have h3 : ("庫存分布不均，" ++ w1 ++ "庫存最多，" ++ w2).data.head? = some '庫' := by
    rw [data_append]
    exact head?_append_left _ _ _ h2
  have h4 : ("庫存分布不均，" ++ w1 ++ "庫存最多，" ++ w2 ++ "庫存最少，考慮調撥平衡").data.head? =
      some '庫' := by
    rw [data_append]
    exact head?_append_left _ _ _ h3
  exact str_ne_of_head h4 rfl (by decide)

theorem msg4_ne_normal : ("最近庫存下降超過10%，建議關注補貨計劃" : String) ≠ normalMsg := by
  decide

theorem msg5_ne_normal : ("最近庫存增長超過20%，建議檢查是否有積壓風險" : String) ≠ normalMsg := by
  decide

/-- The last trend row's rounded percent change, when the `變化率(%)` column
exists (more than one trend row). -/
def latestRate (records : List InventoryRecord) : Option PVal :=
  match (trend_analysis records).table with
  | none => none
  | some tbl => tbl.getLast?.map (fun z => z.2.2)

/-- Suggestion rule 1 of the spec: some zero-inventory product exists. -/
def rule1Fires (records : List InventoryRecord) : Prop :=
  0 < (zero_inventory records).length

/-- Suggestion rule 2: some anomaly was detected. -/
def rule2Fires (records : List InventoryRecord) : Prop :=
  0 < (anomaly_detection records).length

/-- Suggestion rule 3: more than one warehouse is present. -/
def rule3Fires (records : List InventoryRecord) : Prop :=
  1 < (warehouse_analysis records).length

/-- Suggestion rule 4: the latest percent delta is defined (not NaN) and
below −10 (`-inf` counts as below). -/
def rule4Fires (records : List InventoryRecord) : Prop :=
  ∃ r, latestRate records = some r ∧ r.isNan = false ∧ r.ltQ (-10) = true

/-- Suggestion rule 5: the latest percent delta is defined and above +20
(`+inf` counts as above). -/
def rule5Fires (records : List InventoryRecord) : Prop :=
  ∃ r, latestRate records = some r ∧ r.isNan = false ∧ r.gtQ 20 = true

/-- The rule messages in the code's fixed evaluation order (rules 1–5). -/
def ruleMsgs (records : List InventoryRecord) : List String :=
  (if 0 < (zero_inventory records).length then
    ["有 " ++ toString (zero_inventory records).length ++ " 個產品庫存為零，建議及時補貨"]
   else [])
  ++ (if 0 < (anomaly_detection records).length then
    ["發現 " ++ toString (anomaly_detection records).length ++ " 個庫存異常變化，建議進一步調查原因"]
   else [])
  ++ (if 1 < (warehouse_analysis records).length then
    ["庫存分布不均，" ++ argmaxW (warehouse_analysis records) ++ "庫存最多，" ++
     argminW (warehouse_analysis records) ++ "庫存最少，考慮調撥平衡"]
   else [])
  ++ (match latestRate records with
    | none => []
    | some r =>
      if r.isNan then []
      else if r.ltQ (-10) then ["最近庫存下降超過10%，建議關注補貨計劃"]
      else if r.gtQ 20 then ["最近庫存增長超過20%，建議檢查是否有積壓風險"]
      else [])

theorem s45_match_eq (records : List InventoryRecord) :
    (match (trend_analysis records).table with
     | none => ([] : List String)
     | some tbl =>
       match tbl.getLast? with
       | none => []
       | some z =>
         if z.2.2.isNan then []
         else if z.2.2.ltQ (-10) then ["最近庫存下降超過10%，建議關注補貨計劃"]
         else if z.2.2.gtQ 20 then ["最近庫存增長超過20%，建議檢查是否有積壓風險"]
         else []) =
    (match latestRate records with
     | none => ([] : List String)
     | some r =>
       if r.isNan then []
       else if r.ltQ (-10) then ["最近庫存下降超過10%，建議關注補貨計劃"]
       else if r.gtQ 20 then ["最近庫存增長超過20%，建議檢查是否有積壓風險"]
       else []) := by
  rw [latestRate]
  cases (trend_analysis records).table with
  | none => rfl
  | some tbl =>
    dsimp only
    cases tbl.getLast? with
    | none => rfl
    | some z => rfl

theorem suggestionsOf_eq (records : List InventoryRecord) :
    suggestionsOf records =
      if (ruleMsgs records).isEmpty then [normalMsg] else ruleMsgs records := by
  rw [suggestionsOf, generate_suggestions, ruleMsgs]
  rw [s45_match_eq records]

theorem s45_nil_iff (records : List InventoryRecord) :
    ((match latestRate records with
      | none => ([] : List String)
      | some r =>
        if r.isNan then []
        else if r.ltQ (-10) then ["最近庫存下降超過10%，建議關注補貨計劃"]
        else if r.gtQ 20 then ["最近庫存增長超過20%，建議檢查是否有積壓風險"]
        else []) = []) ↔
    ¬rule4Fires records ∧ ¬rule5Fires records := by
  cases hlr : latestRate records with
  | none => simp [rule4Fires, rule5Fires, hlr]
  | some r =>
    by_cases hnan : r.isNan = true
    · simp [rule4Fires, rule5Fires, hlr, hnan]
    · rw [Bool.not_eq_true] at hnan
      by_cases hlt : r.ltQ (-10) = true
      · simp [rule4Fires, rule5Fires, hlr, hnan, hlt]
      · rw [Bool.not_eq_true] at hlt
        by_cases hgt : r.gtQ 20 = true
        · simp [rule4Fires, rule5Fires, hlr, hnan, hlt, hgt]
        · rw [Bool.not_eq_true] at hgt
          simp [rule4Fires, rule5Fires, hlr, hnan, hlt, hgt]

theorem ruleMsgs_nil_iff (records : List InventoryRecord) :
    ruleMsgs records = [] ↔
      ¬rule1Fires records ∧ ¬rule2Fires records ∧ ¬rule3Fires records ∧
      ¬rule4Fires records ∧ ¬rule5Fires records := by
  rw [ruleMsgs, List.append_eq_nil, List.append_eq_nil, List.append_eq_nil]
  rw [s45_nil_iff records]
  constructor
  · rintro ⟨⟨⟨h1, h2⟩, h3⟩, h4, h5⟩
    refine ⟨?_, ?_, ?_, h4, h5⟩
    · intro hc; rw [rule1Fires] at hc; rw [if_pos hc] at h1; cases h1
    · intro hc; rw [rule2Fires] at hc; rw [if_pos hc] at h2; cases h2
    · intro hc; rw [rule3Fires] at hc; rw [if_pos hc] at h3; cases h3
  · rintro ⟨h1, h2, h3, h4, h5⟩
    rw [rule1Fires] at h1; rw [rule2Fires] at h2; rw [rule3Fires] at h3
    rw [if_neg h1, if_neg h2, if_neg h3]
    exact ⟨⟨⟨rfl, rfl⟩, rfl⟩, h4, h5⟩

theorem normal_not_mem_ruleMsgs (records : List InventoryRecord) :
    normalMsg ∉ ruleMsgs records := by
  intro h
  rw [ruleMsgs] at h
  rcases List.mem_append.1 h with h | h
  · rcases List.mem_append.1 h with h | h
    · rcases List.mem_append.1 h with h | h
      · split at h
        · exact msg1_ne_normal _ (List.mem_singleton.1 h).symm
        · cases h
      · split at h
        · exact msg2_ne_normal _ (List.mem_singleton.1 h).symm
        · cases h
    · split at h
      · exact msg3_ne_normal _ _ (List.mem_singleton.1 h).symm
      · cases h
  · split at h
    · cases h
    · split at h
      · cases h
      · split at h
        · exact msg4_ne_normal (List.mem_singleton.1 h).symm
        · split at h
          · exact msg5_ne_normal (List.mem_singleton.1 h).symm
          · cases h

/-- C9: the suggestion list is the single default "status normal, continue
monitoring" message exactly when none of the five rules fired; the default
message never coexists with rule messages; and when some rule fired the list
is precisely the fired rules' messages in the fixed rule order 1–5. -/
theorem claim_C9_default_suggestion (records : List InventoryRecord) :
    (suggestionsOf records = [normalMsg] ↔
      ¬rule1Fires records ∧ ¬rule2Fires records ∧ ¬rule3Fires records ∧
      ¬rule4Fires records ∧ ¬rule5Fires records) ∧
    (normalMsg ∈ suggestionsOf records ↔ suggestionsOf records = [normalMsg]) ∧
    (¬(¬rule1Fires records ∧ ¬rule2Fires records ∧ ¬rule3Fires records ∧
        ¬rule4Fires records ∧ ¬rule5Fires records) →
      suggestionsOf records = ruleMsgs records) := by
  have hEq := suggestionsOf_eq records
  have hNil := ruleMsgs_nil_iff records
  have hNot := normal_not_mem_ruleMsgs records
  by_cases hmt : ruleMsgs records = []
  · rw [hEq, if_pos (List.isEmpty_iff.2 hmt)]
    exact ⟨iff_of_true rfl (hNil.1 hmt), by simp, fun hcon => absurd (hNil.1 hmt) hcon⟩
  · rw [hEq, if_neg (by rw [Bool.not_eq_true, ← Bool.not_eq_true']; simpa [List.isEmpty_iff] using hmt)]
    refine ⟨?_, ?_, fun _ => rfl⟩
    · constructor
      · intro he
        exact absurd (he ▸ List.mem_singleton.2 rfl) hNot
      · intro hc
        exact absurd (hNil.2 hc) hmt
    · constructor
      · intro hmem
        exact absurd hmem hNot
      · intro he
        rw [he]
        exact List.mem_singleton.2 rfl

/-- C9 witness: the theorem applied to the empty record set, on which no rule
fires, so the suggestion list is the single default message. -/
theorem claim_C9_default_suggestion_witness : suggestionsOf [] = [normalMsg] := by
  refine (claim_C9_default_suggestion []).1.2 ⟨?_, ?_, ?_, ?_, ?_⟩
  · simp [rule1Fires, zero_inventory, product_analysis, sortDesc, groupKeys,
      uniqueKeep, uniqueKeepAux, List.insertionSort, listMax]
  · simp [rule2Fires, anomaly_detection, uniqueKeep, uniqueKeepAux]
  · simp [rule3Fires, warehouse_analysis, warehouseGroups, sortDesc, groupKeys,
      uniqueKeep, uniqueKeepAux, List.insertionSort]
  · rintro ⟨r, hr, -⟩
    rw [latestRate] at hr
    revert hr
    simp [trend_analysis, dailyTotals, groupKeys, uniqueKeep, uniqueKeepAux,
      List.insertionSort]
  · rintro ⟨r, hr, -⟩
    rw [latestRate] at hr
    revert hr
    simp [trend_analysis, dailyTotals, groupKeys, uniqueKeep, uniqueKeepAux,
      List.insertionSort]
